import Mathlib

/-!
Verification development for the repair-request tracking repository.

The repository has two stores:

* `Work_DB.py` — class `RepairSystemDatabase` over SQLite (tables
  `users`, `repair_requests`, `comments`, `equipment_types`,
  `equipment_models`, `request_statuses`, `user_types`), with an
  Excel import (`import_from_excel`), `assign_master`, and friends.
  Modelled in namespace `WDb`.

* `App_files/App.py` — a Flask app over `service_requests.db`
  (tables `users`, `masters`, `service_requests`, `comments`,
  `status_history`), with xlsx loaders, schema-drift correction
  (`check_and_update_tables`), and JSON endpoints.  Modelled in
  namespace `AppDb`.

SQLite rows are modelled as Lean structures, tables as lists, and
AUTOINCREMENT id assignment as explicit `next…` counters.  Rollback is
modelled by returning the pre-call state.  Dates are the strings the
code stores; SQLite's text comparison used by the `repair_requests`
CHECK constraint is the lexicographic `String` order.
-/

namespace WDb

/-- A row of the `users` table of `Work_DB.py` (`user_id` is the
SQLite AUTOINCREMENT primary key). -/
structure WUser where
  user_id : Nat
  full_name : String
  phone : String
  login : String
  password_hash : String
  user_type_id : Nat
  is_active : Bool
deriving DecidableEq, Repr

/-- A row of the `repair_requests` table of `Work_DB.py`.  The
generated `request_number` column is `REQ-` plus the zero-padded
`request_id`, hence omitted (it is derivable). -/
structure WRequest where
  request_id : Nat
  start_date : String
  equipment_type_id : Nat
  equipment_model_id : Nat
  problem_description : String
  status_id : Nat
  completion_date : Option String
  repair_parts : Option String
  master_id : Option Nat
  client_id : Nat
  priority : Nat
deriving DecidableEq, Repr

/-- A row of the `comments` table of `Work_DB.py` (the surrogate
`comment_id` / `created_at` columns play no role in any claim). -/
structure WComment where
  message : String
  master_id : Nat
  request_id : Nat
deriving DecidableEq, Repr

/-- A row of `request_statuses`. -/
structure WStatus where
  status_id : Nat
  status_name : String
deriving DecidableEq, Repr

/-- A row of `user_types`. -/
structure WUserType where
  user_type_id : Nat
  type_name : String
deriving DecidableEq, Repr

/-- A row of `equipment_types`. -/
structure WEquipmentType where
  equipment_type_id : Nat
  type_name : String
deriving DecidableEq, Repr

/-- A row of `equipment_models`. -/
structure WEquipmentModel where
  equipment_model_id : Nat
  model_name : String
  equipment_type_id : Nat
deriving DecidableEq, Repr

/-- The whole `Work_DB.py` SQLite store.  The `next…` counters model
AUTOINCREMENT id assignment (`cursor.lastrowid`). -/
structure WDB where
  user_types : List WUserType
  users : List WUser
  equipment_types : List WEquipmentType
  equipment_models : List WEquipmentModel
  request_statuses : List WStatus
  repair_requests : List WRequest
  comments : List WComment
  nextUserId : Nat
  nextRequestId : Nat
  nextTypeId : Nat
  nextModelId : Nat
deriving DecidableEq, Repr

/-- The store produced by `initialize_database` on a fresh file:
seeded `user_types` and the five seeded `request_statuses`
(`_populate_initial_data`), everything else empty. -/
def initialize_database : WDB :=
  { user_types := [⟨1, "Менеджер"⟩, ⟨2, "Мастер"⟩, ⟨3, "Оператор"⟩, ⟨4, "Заказчик"⟩]
    users := []
    equipment_types := []
    equipment_models := []
    request_statuses :=
      [⟨1, "Новая заявка"⟩, ⟨2, "В процессе ремонта"⟩, ⟨3, "Готова к выдаче"⟩,
       ⟨4, "Выполнена"⟩, ⟨5, "Отменена"⟩]
    repair_requests := []
    comments := []
    nextUserId := 1
    nextRequestId := 1
    nextTypeId := 1
    nextModelId := 1 }

/-- Stand-in for `hashlib.sha256(str(...).encode()).hexdigest()`;
the hash mechanics are outside the modelled scope (the spec excludes
password hashing), only that a digest string is stored matters. -/
def sha256_hexdigest (s : String) : String := "sha256:" ++ s

/-- A row of `inputDataUsers.xlsx` as `import_from_excel` reads it
(`type'` models the `type` column). -/
structure WUserRow where
  userID : Int
  fio : String
  phone : String
  login : String
  password : String
  type' : String
deriving DecidableEq, Repr

/-- A row of `inputDataRequests.xlsx` as `import_from_excel` reads it;
`Option` fields are the ones guarded with `pd.isna` in the code. -/
structure WRequestRow where
  requestID : Int
  startDate : String
  homeTechType : String
  homeTechModel : String
  problemDescryption : String
  requestStatus : String
  clientID : Int
  masterID : Option Int
  completionDate : Option String
  repairParts : Option String
deriving DecidableEq, Repr

/-- A row of `inputDataComments.xlsx` as `import_from_excel` reads it. -/
structure WCommentRow where
  masterID : Int
  requestID : Int
  message : String
deriving DecidableEq, Repr

/-- The in-run external→internal id dictionaries
(`user_id_mapping` / `request_id_mapping`).  Python dict assignment is
modelled by consing, lookup by first match. -/
def mapGet (m : List (Int × Nat)) (k : Int) : Option Nat :=
  (m.find? (fun p => decide (p.1 = k))).map (fun p => p.2)

/-- `type_mapping.get(row['type'], 4)` of the users phase. -/
def type_mapping (t : String) : Nat :=
  if t = "Менеджер" then 1
  else if t = "Мастер" then 2
  else if t = "Оператор" then 3
  else if t = "Заказчик" then 4
  else 4

/-- `status_mapping.get(str(row['requestStatus']), 1)` of the requests
phase. -/
def status_mapping (s : String) : Nat :=
  if s = "Новая заявка" then 1
  else if s = "В процессе ремонта" then 2
  else if s = "Готова к выдаче" then 3
  else if s = "Выполнена" then 4
  else if s = "Отменена" then 5
  else 1

/-- One iteration of the users-phase loop of `import_from_excel`:
look up the login; update the existing user in place or insert a new
one; record the external→internal mapping either way. -/
def importUserRow (db : WDB) (m : List (Int × Nat)) (row : WUserRow) :
    WDB × List (Int × Nat) :=
  let user_type_id := type_mapping row.type'
  let password_hash := sha256_hexdigest row.password
  match db.users.find? (fun u => decide (u.login = row.login)) with
  | some u =>
      ({ db with users := db.users.map (fun v =>
            if v.user_id = u.user_id then
              { v with full_name := row.fio, phone := row.phone,
                       password_hash := password_hash,
                       user_type_id := user_type_id, is_active := true }
            else v) },
       (row.userID, u.user_id) :: m)
  | none =>
      let uid := db.nextUserId
      ({ db with
          users := db.users ++
            [{ user_id := uid, full_name := row.fio, phone := row.phone,
               login := row.login, password_hash := password_hash,
               user_type_id := user_type_id, is_active := true }]
          nextUserId := uid + 1 },
       (row.userID, uid) :: m)

/-- The users phase of `import_from_excel` (typed rows; the phase has
no per-row failure point once the cells carry their declared types). -/
def usersPhase (rows : List WUserRow) (db : WDB) (m : List (Int × Nat)) :
    WDB × List (Int × Nat) :=
  match rows with
  | [] => (db, m)
  | r :: rest =>
      let s := importUserRow db m r
      usersPhase rest s.1 s.2

/-- `SELECT … FROM equipment_types` / `INSERT INTO equipment_types`
with the per-run `equipment_types` memo dictionary. -/
def getOrCreateType (db : WDB) (cache : List (String × Nat)) (name : String) :
    Nat × WDB × List (String × Nat) :=
  match cache.find? (fun p => decide (p.1 = name)) with
  | some p => (p.2, db, cache)
  | none =>
      match db.equipment_types.find? (fun e => decide (e.type_name = name)) with
      | some e => (e.equipment_type_id, db, (name, e.equipment_type_id) :: cache)
      | none =>
          let tid := db.nextTypeId
          (tid,
           { db with equipment_types := db.equipment_types ++ [⟨tid, name⟩],
                     nextTypeId := tid + 1 },
           (name, tid) :: cache)

/-- `SELECT … FROM equipment_models` / `INSERT INTO equipment_models`
with the per-run `equipment_models` memo keyed by
`f"{equipment_type}_{equipment_model}"`. -/
def getOrCreateModel (db : WDB) (cache : List (String × Nat))
    (typeName modelName : String) (type_id : Nat) :
    Nat × WDB × List (String × Nat) :=
  let key := typeName ++ "_" ++ modelName
  match cache.find? (fun p => decide (p.1 = key)) with
  | some p => (p.2, db, cache)
  | none =>
      match db.equipment_models.find?
          (fun e => decide (e.model_name = modelName) &&
                    decide (e.equipment_type_id = type_id)) with
      | some e => (e.equipment_model_id, db, (key, e.equipment_model_id) :: cache)
      | none =>
          let mid := db.nextModelId
          (mid,
           { db with
               equipment_models := db.equipment_models ++ [⟨mid, modelName, type_id⟩],
               nextModelId := mid + 1 },
           (key, mid) :: cache)

/-- Lexicographic order on character lists (SQLite compares TEXT
values byte-wise; on these date strings code-point order coincides). -/
def charListLt : List Char → List Char → Bool
  | [], [] => false
  | [], _ :: _ => true
  | _ :: _, [] => false
  | a :: as, b :: bs =>
      if a.toNat < b.toNat then true
      else if b.toNat < a.toNat then false
      else charListLt as bs

/-- SQLite's TEXT comparison. -/
def strLt (a b : String) : Bool := charListLt a.data b.data

/-- SQLite's TEXT comparison backing the schema constraint
`CHECK (completion_date IS NULL OR completion_date >= start_date)`. -/
def checkDates (start : String) (completion : Option String) : Bool :=
  match completion with
  | none => true
  | some c => !(strLt c start)

/-- The intermediate state threaded through the requests phase:
the store, `request_id_mapping`, and the two equipment memo caches. -/
structure ReqPhaseState where
  db : WDB
  rmap : List (Int × Nat)
  eqTypes : List (String × Nat)
  eqModels : List (String × Nat)
deriving DecidableEq, Repr

/-- One iteration of the requests-phase loop of `import_from_excel`.
The `INSERT INTO repair_requests` raises (aborting the phase) when the
client id did not resolve (`client_id` NOT NULL), when the seeded
status row for the mapped `status_id` is missing (FOREIGN KEY, with
`PRAGMA foreign_keys = ON`), or when the dates violate the CHECK
constraint. -/
def importRequestRow (umap : List (Int × Nat)) (st : ReqPhaseState)
    (row : WRequestRow) : Except String ReqPhaseState :=
  let t := getOrCreateType st.db st.eqTypes row.homeTechType
  let m := getOrCreateModel t.2.1 st.eqModels row.homeTechType row.homeTechModel t.1
  let status_id := status_mapping row.requestStatus
  match mapGet umap row.clientID with
  | none => .error "NOT NULL constraint failed: repair_requests.client_id"
  | some client_id =>
      let master_id := match row.masterID with
        | none => none
        | some ext => mapGet umap ext
      if checkDates row.startDate row.completionDate = false then
        .error "CHECK constraint failed: repair_requests"
      else if m.2.1.request_statuses.any (fun s => decide (s.status_id = status_id)) = false then
        .error "FOREIGN KEY constraint failed"
      else
        let rid := m.2.1.nextRequestId
        .ok { db := { m.2.1 with
                repair_requests := m.2.1.repair_requests ++
                  [{ request_id := rid, start_date := row.startDate,
                     equipment_type_id := t.1, equipment_model_id := m.1,
                     problem_description := row.problemDescryption,
                     status_id := status_id,
                     completion_date := row.completionDate,
                     repair_parts := row.repairParts,
                     master_id := master_id, client_id := client_id,
                     priority := 3 }]
                nextRequestId := rid + 1 }
              rmap := (row.requestID, rid) :: st.rmap
              eqTypes := t.2.2
              eqModels := m.2.2 }

/-- The requests phase of `import_from_excel`: the loop has no
per-row recovery, so the first failing row aborts the whole phase. -/
def requestsPhase (umap : List (Int × Nat)) (rows : List WRequestRow)
    (st : ReqPhaseState) : Except String ReqPhaseState :=
  match rows with
  | [] => .ok st
  | r :: rest =>
      match importRequestRow umap st r with
      | .error e => .error e
      | .ok st' => requestsPhase umap rest st'

/-- One iteration of the comments-phase loop of `import_from_excel`:
resolve both ids through the in-run dictionaries and insert only when
both are truthy (`if master_id and request_id:`). -/
def importCommentRow (umap rmap : List (Int × Nat)) (db : WDB)
    (row : WCommentRow) : WDB :=
  match mapGet umap row.masterID, mapGet rmap row.requestID with
  | some master_id, some request_id =>
      if master_id ≠ 0 ∧ request_id ≠ 0 then
        { db with comments := db.comments ++
            [{ message := row.message, master_id := master_id,
               request_id := request_id }] }
      else db
  | _, _ => db

/-- The comments phase of `import_from_excel` (also counts the
inserted comments, mirroring `comment_count`). -/
def commentsPhase (umap rmap : List (Int × Nat)) (rows : List WCommentRow)
    (db : WDB) (cnt : Nat) : WDB × Nat :=
  match rows with
  | [] => (db, cnt)
  | r :: rest =>
      let db' := importCommentRow umap rmap db r
      commentsPhase umap rmap rest db'
        (if db'.comments.length = db.comments.length then cnt else cnt + 1)

/-- The `{success, message}` envelope returned by the database
methods. -/
structure WResult where
  success : Bool
  message : String
deriving DecidableEq, Repr

/-- `RepairSystemDatabase.import_from_excel` over already-read row
batches: users phase (upsert by login, building `user_id_mapping`),
requests phase (aborting the run with a rollback to the pre-call
store on any row failure), comments phase, then commit. -/
def import_from_excel (uRows : List WUserRow) (rRows : List WRequestRow)
    (cRows : List WCommentRow) (db : WDB) : WDB × WResult :=
  let u := usersPhase uRows db []
  match requestsPhase u.2 rRows ⟨u.1, [], [], []⟩ with
  | .error e => (db, ⟨false, "Ошибка при импорте заявок: " ++ e⟩)
  | .ok st =>
      let c := commentsPhase u.2 st.rmap cRows st.db 0
      (c.1, ⟨true, "Данные успешно импортированы"⟩)

/-- `ut.type_name IN ('Мастер', 'Менеджер')` joined through
`user_types`: the target user exists and carries an eligible role. -/
def eligibleMaster (db : WDB) (master_id : Nat) : Bool :=
  db.users.any (fun u => decide (u.user_id = master_id) &&
    db.user_types.any (fun t => decide (t.user_type_id = u.user_type_id) &&
      (decide (t.type_name = "Мастер") || decide (t.type_name = "Менеджер"))))

/-- `RepairSystemDatabase.assign_master`: check the request exists,
check the target user's role, look up the "В процессе ремонта" status
(a missing row raises and rolls back), update the request, and insert
the one audit comment (whose `master_id` column holds the acting
user; with foreign keys on, an unknown acting user makes the insert
raise and the call roll back). -/
def assign_master (request_id master_id user_id : Nat) (db : WDB) :
    WDB × WResult :=
  match db.repair_requests.find? (fun r => decide (r.request_id = request_id)) with
  | none => (db, ⟨false, "Заявка не найдена"⟩)
  | some _ =>
      if eligibleMaster db master_id then
        match db.request_statuses.find?
            (fun s => decide (s.status_name = "В процессе ремонта")) with
        | none => (db, ⟨false, "Ошибка при назначении мастера: статус не найден"⟩)
        | some s =>
            if db.users.any (fun u => decide (u.user_id = user_id)) then
              ({ db with
                  repair_requests := db.repair_requests.map (fun r =>
                    if r.request_id = request_id then
                      { r with master_id := some master_id, status_id := s.status_id }
                    else r)
                  comments := db.comments ++
                    [{ message := "Мастер назначен на заявку",
                       master_id := user_id, request_id := request_id }] },
               ⟨true, "Мастер успешно назначен"⟩)
            else
              (db, ⟨false, "Ошибка при назначении мастера: FOREIGN KEY constraint failed"⟩)
      else (db, ⟨false, "Пользователь не является мастером"⟩)

/-- The logins column of the `users` table. -/
def wLogins (db : WDB) : List String := db.users.map (fun u => u.login)

/-- The single-row success condition of the requests phase: the
client id resolves, the dates satisfy the CHECK constraint, and the
mapped status id has a seeded row. -/
def wRowOk (statuses : List WStatus) (umap : List (Int × Nat))
    (row : WRequestRow) : Bool :=
  (mapGet umap row.clientID).isSome &&
  checkDates row.startDate row.completionDate &&
  statuses.any (fun s => decide (s.status_id = status_mapping row.requestStatus))

/-- The store-level date invariant enforced by the `repair_requests`
CHECK constraint, as a decidable predicate. -/
def wDatesOk (db : WDB) : Bool :=
  db.repair_requests.all (fun r => checkDates r.start_date r.completion_date)

end WDb

namespace AppDb

/-- A row of the `users` table of `App.py` (`service_requests.db`). -/
structure AUser where
  id : Int
  login : String
  password_hash : String
  fio : String
  phone : String
  user_type : String
deriving DecidableEq, Repr

/-- A row of the `masters` table of `App.py`. -/
structure AMaster where
  id : Int
  user_id : Option Int
  master_fio : String
  master_phone : String
  master_login : String
  master_type : String
deriving DecidableEq, Repr

/-- A row of the `service_requests` table of `App.py` (keyed by its
UNIQUE NOT NULL `request_id`; the surrogate `id` column is unused by
the application). -/
structure ARequest where
  request_id : Int
  start_date : String
  tech_type : String
  tech_model : String
  problem_description : String
  request_status : String
  completion_date : Option String
  days_in_process : Option Int
  repair_parts : Option String
  has_comment : Bool
  master_id : Option Int
  master_fio : String
  master_phone : String
  master_login : String
  master_type : String
  client_id : Option Int
  client_fio : String
  client_phone : String
  client_login : String
  client_type : String
deriving DecidableEq, Repr

/-- A row of the `comments` table of `App.py` (`request_id` and
`message` are NOT NULL; everything else nullable). -/
structure AComment where
  comment_id : Option Int
  request_id : Int
  master_id : Option Int
  user_id : Option Int
  user_fio : Option String
  user_type : Option String
  message : String
deriving DecidableEq, Repr

/-- A row of the `status_history` table of `App.py`. -/
structure AHist where
  request_id : Int
  old_status : String
  new_status : String
  changed_by : String
  comment : String
deriving DecidableEq, Repr

/-- The `service_requests.db` store of `App.py`.  The `next…`
counters model the AUTOINCREMENT id sequences of `users` and
`masters`. -/
structure ADB where
  users : List AUser
  masters : List AMaster
  requests : List ARequest
  comments : List AComment
  status_history : List AHist
  nextUserRow : Int
  nextMasterRow : Int
deriving DecidableEq, Repr

/-- The store right after `create_tables_from_scratch` created empty
tables (before any loader ran). -/
def emptyADB : ADB :=
  { users := [], masters := [], requests := [], comments := [],
    status_history := [], nextUserRow := 1, nextMasterRow := 1 }

/-- Stand-in for `werkzeug.security.generate_password_hash`; hashing
mechanics are outside the modelled scope. -/
def generate_password_hash (s : String) : String := "pbkdf2:" ++ s

/-- A row of `inputDataUsers.xlsx` as `load_users_from_xlsx` reads it
(`none` models a `pd.isna` cell; `type'` models the `type` column). -/
structure URow where
  userID : Option Int
  type' : Option String
  password : Option String
  login : Option String
  fio : Option String
  phone : Option String
deriving DecidableEq, Repr

/-- A row of `inputDataRequests.xlsx` as the
`inputDataRequests.xlsx` branch of `load_requests_from_xlsx` reads
it.  `startDate`/`completionDate` carry the already-normalized string
(`pd.Timestamp` values are `strftime`-ed to `YYYY-MM-DD HH:MM:SS`). -/
structure RRow where
  requestID : Option Int
  startDate : Option String
  homeTechType : Option String
  homeTechModel : Option String
  problemDescryption : Option String
  requestStatus : Option String
  clientID : Option Int
  masterID : Option Int
  completionDate : Option String
  repairParts : Option String
deriving DecidableEq, Repr

/-- A row of `inputDataComments.xlsx` as `load_comments_from_xlsx`
reads it. -/
structure CRow where
  commentID : Option Int
  requestID : Option Int
  masterID : Option Int
  message : Option String
deriving DecidableEq, Repr

/-- `type_mapping.get(..., 'client')` of `load_users_from_xlsx`. -/
def type_mapping (t : String) : String :=
  if t = "Менеджер" then "admin"
  else if t = "Мастер" then "master"
  else if t = "Оператор" then "operator"
  else if t = "Заказчик" then "client"
  else "client"

/-- `INSERT OR REPLACE INTO users (id, …)`: SQLite REPLACE deletes
every row conflicting on the `id` primary key or the UNIQUE `login`,
then inserts; an explicit id keeps the AUTOINCREMENT sequence ahead
of it. -/
def insertOrReplaceUser (db : ADB) (u : AUser) : ADB :=
  { db with
      users := db.users.filter
        (fun v => !(decide (v.id = u.id) || decide (v.login = u.login))) ++ [u]
      nextUserRow := max db.nextUserRow (u.id + 1) }

/-- `INSERT OR REPLACE INTO masters (user_id, …)`: no explicit id, so
a fresh AUTOINCREMENT id; REPLACE resolves a conflict on the UNIQUE
`master_login`. -/
def insertOrReplaceMaster (db : ADB) (user_id : Int)
    (fio phone login : String) : ADB :=
  { db with
      masters := db.masters.filter
        (fun m => !(decide (m.master_login = login))) ++
        [{ id := db.nextMasterRow, user_id := some user_id, master_fio := fio,
           master_phone := phone, master_login := login, master_type := "Мастер" }]
      nextMasterRow := db.nextMasterRow + 1 }

/-- One iteration of the `load_users_from_xlsx` row loop, with the
documented per-field defaults. -/
def loadUserRow (idx : Nat) (db : ADB) (row : URow) : ADB :=
  let user_id := row.userID.getD (Int.ofNat (idx + 1))
  let user_type := type_mapping (row.type'.getD "Заказчик")
  let login := row.login.getD ("user" ++ toString (idx + 1))
  let fio := row.fio.getD ("Пользователь " ++ toString (idx + 1))
  let phone := row.phone.getD ""
  let password := row.password.getD "password123"
  let db1 := insertOrReplaceUser db
    { id := user_id, login := login,
      password_hash := generate_password_hash password,
      fio := fio, phone := phone, user_type := user_type }
  if user_type = "master" then insertOrReplaceMaster db1 user_id fio phone login
  else db1

/-- The row loop of `load_users_from_xlsx`. -/
def loadUserRows (idx : Nat) (rows : List URow) (db : ADB) : ADB :=
  match rows with
  | [] => db
  | r :: rest => loadUserRows (idx + 1) rest (loadUserRow idx db r)

/-- The seven fixed default accounts of `create_default_users`:
`(login, password, fio, phone, user_type)`. -/
def default_users : List (String × String × String × String × String) :=
  [("admin", "admin123", "Администратор Системы", "88001234567", "admin"),
   ("manager1", "manager123", "Менеджер 1", "89501112233", "admin"),
   ("master1", "master123", "Мастер 1", "89502223344", "master"),
   ("master2", "master123", "Мастер 2", "89503334455", "master"),
   ("operator1", "operator123", "Оператор 1", "89504445566", "operator"),
   ("client1", "client123", "Клиент 1", "89151234567", "client"),
   ("client2", "client123", "Клиент 2", "89152345678", "client")]

/-- One iteration of the `create_default_users` loop:
`INSERT OR IGNORE INTO users`, and for a master also
`INSERT OR IGNORE INTO masters` keyed on the freshly looked-up
user id. -/
def createDefaultUser (db : ADB)
    (entry : String × String × String × String × String) : ADB :=
  let login := entry.1
  let password := entry.2.1
  let fio := entry.2.2.1
  let phone := entry.2.2.2.1
  let user_type := entry.2.2.2.2
  let db1 :=
    if db.users.any (fun v => decide (v.login = login)) then db
    else { db with
            users := db.users ++
              [{ id := db.nextUserRow, login := login,
                 password_hash := generate_password_hash password,
                 fio := fio, phone := phone, user_type := user_type }]
            nextUserRow := db.nextUserRow + 1 }
  if user_type = "master" then
    match db1.users.find? (fun v => decide (v.login = login)) with
    | some u =>
        if db1.masters.any (fun m => decide (m.master_login = login)) then db1
        else { db1 with
                masters := db1.masters ++
                  [{ id := db1.nextMasterRow, user_id := some u.id,
                     master_fio := fio, master_phone := phone,
                     master_login := login, master_type := "Мастер" }]
                nextMasterRow := db1.nextMasterRow + 1 }
    | none => db1
  else db1

/-- `create_default_users`. -/
def create_default_users (db : ADB) : ADB :=
  default_users.foldl createDefaultUser db

/-- `load_users_from_xlsx`: `none` models both the missing
`inputDataUsers.xlsx` file and a raised read error — both paths fall
back to `create_default_users` and return normally. -/
def load_users_from_xlsx (input : Option (List URow)) (db : ADB) : ADB :=
  match input with
  | none => create_default_users db
  | some rows => loadUserRows 0 rows db

/-- Exactly-four-digit year field of `_strptime`'s `%Y`. -/
def parseYear : List Char → Option (Nat × List Char)
  | a :: b :: c :: d :: rest =>
      if a.isDigit && b.isDigit && c.isDigit && d.isDigit then
        some ((a.toNat - 48) * 1000 + (b.toNat - 48) * 100 +
              (c.toNat - 48) * 10 + (d.toNat - 48), rest)
      else none
  | _ => none

/-- `%m`'s field regex `1[0-2]|0[1-9]|[1-9]`, alternatives tried left
to right. -/
def parseMonth : List Char → Option (Nat × List Char)
  | c0 :: c1 :: rest =>
      if c0 = '1' && ('0' ≤ c1 && c1 ≤ '2') then some (10 + (c1.toNat - 48), rest)
      else if c0 = '0' && ('1' ≤ c1 && c1 ≤ '9') then some (c1.toNat - 48, rest)
      else if '1' ≤ c0 && c0 ≤ '9' then some (c0.toNat - 48, c1 :: rest)
      else none
  | [c0] =>
      if '1' ≤ c0 && c0 ≤ '9' then some (c0.toNat - 48, []) else none
  | [] => none

/-- `%d`'s field regex `3[01]|[12]\d|0[1-9]|[1-9]`, alternatives
tried left to right. -/
def parseDay : List Char → Option (Nat × List Char)
  | c0 :: c1 :: rest =>
      if c0 = '3' && (c1 = '0' || c1 = '1') then some (30 + (c1.toNat - 48), rest)
      else if (c0 = '1' || c0 = '2') && c1.isDigit then
        some ((c0.toNat - 48) * 10 + (c1.toNat - 48), rest)
      else if c0 = '0' && ('1' ≤ c1 && c1 ≤ '9') then some (c1.toNat - 48, rest)
      else if '1' ≤ c0 && c0 ≤ '9' then some (c0.toNat - 48, c1 :: rest)
      else none
  | [c0] =>
      if '1' ≤ c0 && c0 ≤ '9' then some (c0.toNat - 48, []) else none
  | [] => none

/-- The proleptic-Gregorian leap-year rule of `datetime`. -/
def isLeap (y : Nat) : Bool :=
  y % 4 = 0 && (y % 100 ≠ 0 || y % 400 = 0)

/-- Month lengths of `datetime`. -/
def daysInMonth (y m : Nat) : Nat :=
  if m = 2 then (if isLeap y then 29 else 28)
  else if m = 4 || m = 6 || m = 9 || m = 11 then 30
  else 31

/-- A validated calendar date. -/
structure CivilDate where
  year : Nat
  month : Nat
  day : Nat
deriving DecidableEq, Repr

/-- `datetime.strptime(s, '%Y-%m-%d')`: the whole string must be
consumed, and the `datetime` constructor then validates
`MINYEAR ≤ year` and the day against the month length. -/
def strptimeYmd (s : String) : Option CivilDate :=
  match parseYear s.data with
  | none => none
  | some (y, r1) =>
      match r1 with
      | '-' :: r2 =>
          match parseMonth r2 with
          | none => none
          | some (m, r3) =>
              match r3 with
              | '-' :: r4 =>
                  match parseDay r4 with
                  | none => none
                  | some (d, r5) =>
                      if r5 = [] ∧ 1 ≤ y ∧ d ≤ daysInMonth y m then
                        some ⟨y, m, d⟩
                      else none
              | _ => none
      | _ => none

/-- Days in the months strictly before month `m` of year `y`. -/
def daysBeforeMonth (y m : Nat) : Nat :=
  (List.range (m - 1)).foldl (fun acc i => acc + daysInMonth y (i + 1)) 0

/-- `datetime.date.toordinal`: day number of a civil date counting
0001-01-01 as day 1; the difference of two ordinals is exactly the
whole-day distance `(end_dt - start_dt).days` between the two
midnight datetimes. -/
def toordinal (d : CivilDate) : Nat :=
  let p := d.year - 1
  365 * p + p / 4 - p / 100 + p / 400 + daysBeforeMonth d.year d.month + d.day

/-- Lines 441–449 of `App.py`: `days_in_process` stays `None` without
a (truthy) completion date; otherwise it is the whole-day difference
of the parsed 10-character date prefixes, or `0` when either prefix
fails to parse. -/
def daysInProcessCalc (start_date : String) (completion_date : Option String) :
    Option Int :=
  match completion_date with
  | none => none
  | some c =>
      if c = "" then none
      else
        some (match strptimeYmd (start_date.take 10), strptimeYmd (c.take 10) with
          | some s, some e => (toordinal e : Int) - (toordinal s : Int)
          | _, _ => 0)

/-- `INSERT OR REPLACE INTO service_requests`: REPLACE deletes any
row with the same UNIQUE `request_id`, then inserts. -/
def replaceRequest (db : ADB) (r : ARequest) : ADB :=
  { db with requests :=
      db.requests.filter (fun x => !(decide (x.request_id = r.request_id))) ++ [r] }

/-- One iteration of the `inputDataRequests.xlsx` branch of the
`load_requests_from_xlsx` row loop.  The only raising step for typed
cells is `int(row['requestID'])` on a NaN cell; the inserted row
carries no `has_comment` column, so REPLACE resets the flag to its
`FALSE` default.  `now` is the clock string used when `startDate`
is missing. -/
def loadRequestRow (now : String) (db : ADB) (row : RRow) :
    Except String ADB :=
  let client_id := row.clientID
  let master_id := row.masterID
  let client_data := client_id.bind
    (fun c => db.users.find? (fun u => decide (u.id = c)))
  let master_data : Option AMaster := match master_id with
    | none => none
    | some mid =>
        if mid ≠ 0 then db.masters.find? (fun m => decide (m.id = mid)) else none
  let start_date := row.startDate.getD now
  let completion_date := row.completionDate
  let days_in_process := daysInProcessCalc start_date completion_date
  match row.requestID with
  | none => .error "cannot convert float NaN to integer"
  | some rq =>
      .ok (replaceRequest db
        { request_id := rq
          start_date := start_date
          tech_type := row.homeTechType.getD ""
          tech_model := row.homeTechModel.getD ""
          problem_description := row.problemDescryption.getD ""
          request_status := row.requestStatus.getD "Новая заявка"
          completion_date := completion_date
          days_in_process := days_in_process
          repair_parts := some (row.repairParts.getD "")
          has_comment := false
          master_id := master_id
          master_fio := match master_data with | some m => m.master_fio | none => ""
          master_phone := match master_data with | some m => m.master_phone | none => ""
          master_login := match master_data with | some m => m.master_login | none => ""
          master_type := if master_data.isSome then "Мастер" else ""
          client_id := client_id
          client_fio := match client_data with | some u => u.fio | none => "Неизвестный клиент"
          client_phone := match client_data with | some u => u.phone | none => ""
          client_login := match client_data with | some u => u.login | none => ""
          client_type := match client_data with | some u => u.user_type | none => "client" })

/-- The `load_requests_from_xlsx` row loop: each row is wrapped in
its own `try/except`, so a failing row only appends its index to the
error log (`print(f"Ошибка при обработке заявки {idx}…")`) and the
loop continues with the next row. -/
def loadRequestsAux (now : String) :
    Nat → List RRow → ADB → List Nat → ADB × List Nat
  | _, [], db, log => (db, log)
  | i, r :: rest, db, log =>
      match loadRequestRow now db r with
      | .ok db' => loadRequestsAux now (i + 1) rest db' log
      | .error _ => loadRequestsAux now (i + 1) rest db (log ++ [i])

/-- `load_requests_from_xlsx` over the `inputDataRequests.xlsx`
branch, returning the store and the logged failing row indices. -/
def load_requests_from_xlsx (now : String) (rows : List RRow) (db : ADB) :
    ADB × List Nat :=
  loadRequestsAux now 0 rows db []

/-- One iteration of the `load_comments_from_xlsx` row loop.  A NaN
`requestID` makes the NOT NULL insert raise (caught per row, row
skipped); otherwise the comment is always inserted — an unknown
`masterID` only leaves the user fields NULL — and the owning
request's `has_comment` flag is set when `request_id` is truthy. -/
def applyCommentRow (db : ADB) (row : CRow) : ADB :=
  match row.requestID with
  | none => db
  | some rq =>
      let found : Option AMaster := row.masterID.bind
        (fun mid => db.masters.find? (fun m => decide (m.id = mid)))
      let user_id : Option Int := match found with
        | some m => m.user_id
        | none => none
      let user_fio : Option String := match found with
        | some m => some m.master_fio
        | none => none
      let user_type : Option String := match found with
        | some m =>
            some (match m.user_id.bind
                (fun u => (db.users.find? (fun v => decide (v.id = u))).map
                  (fun v => v.user_type)) with
              | some t => t
              | none => "master")
        | none => none
      let db1 := { db with comments := db.comments ++
        [{ comment_id := row.commentID, request_id := rq,
           master_id := row.masterID, user_id := user_id,
           user_fio := user_fio, user_type := user_type,
           message := row.message.getD "" }] }
      if rq ≠ 0 then
        { db1 with requests := db1.requests.map (fun r =>
            if r.request_id = rq then { r with has_comment := true } else r) }
      else db1

/-- `load_comments_from_xlsx`. -/
def load_comments_from_xlsx (rows : List CRow) (db : ADB) : ADB :=
  rows.foldl applyCommentRow db

/-- `POST /api/comments` (`add_comment`): insert the comment, set the
owning request's `has_comment` flag, and optionally append to the
request's `repair_parts` note
(`COALESCE(repair_parts || ', ', '') || ?`). -/
def add_comment (request_id : Int) (message : String)
    (repair_parts : Option String) (session_user_id : Int)
    (session_user_fio : String) (session_user_type : String) (db : ADB) : ADB :=
  let master_id : Option Int :=
    if session_user_type = "master" then
      (db.masters.find? (fun m => decide (m.user_id = some session_user_id))).map
        (fun m => m.id)
    else none
  let newComment : AComment :=
    { comment_id := none, request_id := request_id, master_id := master_id,
      user_id := some session_user_id, user_fio := some session_user_fio,
      user_type := some session_user_type, message := message }
  let db1 : ADB := { db with comments := db.comments ++ [newComment] }
  let db2 : ADB := { db1 with requests := db1.requests.map (fun r =>
    if r.request_id = request_id then { r with has_comment := true } else r) }
  match repair_parts with
  | some p =>
      if p ≠ "" then
        { db2 with requests := db2.requests.map (fun r =>
            if r.request_id = request_id then
              let appended := (match r.repair_parts with
                | some q => q ++ ", "
                | none => "") ++ p
              { r with repair_parts := some appended }
            else r) }
      else db2
  | none => db2

/-- `PUT /api/requests/<id>/assign` (`assign_master`): permission
check on the session role, truthiness check on the posted master id,
master lookup, then the request update and exactly one
`status_history` insert. -/
def assign_master (request_id : Int) (session_user_type session_user_name : String)
    (master_id : Option Int) (db : ADB) : ADB × Bool :=
  if ¬(session_user_type = "admin" ∨ session_user_type = "manager" ∨
       session_user_type = "operator") then (db, false)
  else
    match master_id with
    | none => (db, false)
    | some mid =>
        if mid = 0 then (db, false)
        else
          match db.masters.find? (fun m => decide (m.id = mid)) with
          | none => (db, false)
          | some m =>
              ({ db with
                  requests := db.requests.map (fun r =>
                    if r.request_id = request_id then
                      { r with master_id := some mid, master_fio := m.master_fio,
                               master_phone := m.master_phone,
                               master_login := m.master_login,
                               request_status := "В процессе ремонта" }
                    else r)
                  status_history := db.status_history ++
                    [{ request_id := request_id, old_status := "Новая заявка",
                       new_status := "В процессе ремонта",
                       changed_by := session_user_name,
                       comment := "Назначен мастер: " ++ m.master_fio }] },
               true)

/-- The column set `check_and_update_tables` requires of `comments`. -/
def requiredCommentColumns : List String :=
  ["id", "request_id", "user_id", "user_fio", "user_type", "message", "created_at"]

/-- The old columns copied under their own name. -/
def directCopyColumns : List String :=
  ["id", "comment_id", "request_id", "master_id", "message", "created_at"]

/-- A live table shape: its column names and its rows, each row an
association list from column name to nullable value. -/
structure CommentsTable where
  cols : List String
  rows : List (List (String × Option String))
deriving DecidableEq, Repr

/-- The part of the store `check_and_update_tables`' comments
migration touches: the `comments` table and the transient
`comments_new` replacement. -/
structure MigState where
  comments : CommentsTable
  comments_new : Option (List (List (String × Option String)))
deriving DecidableEq, Repr

/-- Value of column `c` in a row. -/
def rowGet (row : List (String × Option String)) (c : String) : Option String :=
  match row.find? (fun p => decide (p.1 = c)) with
  | some p => p.2
  | none => none

/-- Lines 86–108 of `App.py`: build the `(select, insert)` column
pairs from the old column list, then add `NULL` sources for whichever
of `user_id`/`user_fio`/`user_type` is still missing. -/
def copyColumnPairs (oldCols : List String) : List (Option String × String) :=
  let base := oldCols.filterMap (fun col =>
    if col ∈ directCopyColumns then some (some col, col)
    else if col.toLower = "user_id" then some (some col, "user_id")
    else if col.toLower = "user_fio" then some (some col, "user_fio")
    else if col.toLower = "user_type" then some (some col, "user_type")
    else none)
  let extra := ["user_id", "user_fio", "user_type"].filterMap (fun col =>
    if (base.map (fun p => p.2)).contains col then none
    else some ((none : Option String), col))
  base ++ extra

/-- The rows `SELECT {select_columns} FROM comments` +
`INSERT INTO comments_new ({insert_columns})` would move. -/
def copiedRows (t : CommentsTable) : List (List (String × Option String)) :=
  t.rows.map (fun r =>
    (copyColumnPairs t.cols).map (fun p =>
      (p.2, match p.1 with
            | some c => rowGet r c
            | none => none)))

/-- A copied row that violates a NOT NULL column of `comments_new`
(`request_id NOT NULL`, `message NOT NULL`, neither with a default),
making `executemany` raise. -/
def copiedRowViolatesNotNull (r : List (String × Option String)) : Bool :=
  decide (rowGet r "request_id" = none) || decide (rowGet r "message" = none)

/-- Whether the row copy of the comments migration raises. -/
def commentsCopyFails (t : CommentsTable) : Bool :=
  (copiedRows t).any copiedRowViolatesNotNull

/-- The replacement schema of `comments_new`. -/
def newCommentColumns : List String :=
  ["id", "comment_id", "request_id", "master_id", "user_id", "user_fio",
   "user_type", "message", "created_at"]

/-- Lines 40–131 of `App.py` (`check_and_update_tables`, comments
portion): when required columns are missing, create `comments_new`,
copy the rows across; on success drop the old table and rename the
replacement; on a copy failure drop `comments_new`, keep the original
table untouched and report the error
(`print(f"Ошибка при обновлении таблицы comments: …")`).  Returns the
state and whether a failure was reported. -/
def check_and_update_tables (st : MigState) : MigState × Bool :=
  let missing := requiredCommentColumns.filter
    (fun c => !(st.comments.cols.contains c))
  if missing.isEmpty then (st, false)
  else
    if commentsCopyFails st.comments then
      ({ comments := st.comments, comments_new := none }, true)
    else
      ({ comments := { cols := newCommentColumns, rows := copiedRows st.comments },
         comments_new := none }, false)

end AppDb

namespace WDb

/-- A one-user sample batch (external id 1, login `alice`). -/
def sampleUserRows : List WUserRow :=
  [⟨1, "Алиса Иванова", "89001112233", "alice", "pw1", "Заказчик"⟩]

/-- A one-request sample batch referencing client external id 1. -/
def sampleRequestRows : List WRequestRow :=
  [⟨1, "2024-01-10", "Холодильник", "X100", "не морозит", "Новая заявка", 1,
    none, none, none⟩]

/-- A requests batch whose first row references the unknown client
external id 99 (its insert violates `client_id` NOT NULL) and whose
second row is valid. -/
def badThenGoodRequestRows : List WRequestRow :=
  [⟨1, "2024-01-10", "Холодильник", "X100", "не морозит", "Новая заявка", 99,
    none, none, none⟩,
   ⟨2, "2024-01-11", "Чайник", "T1", "не греет", "Новая заявка", 1,
    none, none, none⟩]

/-- A request row whose completion date precedes its start date
(violating the `repair_requests` CHECK constraint). -/
def violatingWRequestRow : WRequestRow :=
  ⟨3, "2024-05-10", "Стиральная машина", "W2", "не отжимает", "Выполнена", 1,
   none, some "2024-05-01", none⟩

/-- A seeded store carrying one client (id 1), one master (id 2) and
one open request (id 1, status 1, unassigned). -/
def fixtureWDB : WDB :=
  { initialize_database with
      users := [⟨1, "Клиент Один", "111", "client1", "h1", 4, true⟩,
                ⟨2, "Мастер Один", "222", "master1", "h2", 2, true⟩]
      equipment_types := [⟨1, "Холодильник"⟩]
      equipment_models := [⟨1, "X100", 1⟩]
      repair_requests := [⟨1, "2024-01-01", 1, 1, "шумит", 1, none, none, none, 1, 3⟩]
      nextUserId := 3
      nextRequestId := 2
      nextTypeId := 2
      nextModelId := 2 }

end WDb

namespace AppDb

/-- A fixed clock string standing in for `datetime.now().strftime(…)`. -/
def nowFixture : String := "2024-02-01 00:00:00"

/-- A request row whose `requestID` cell is NaN: `int(...)` raises,
the row is skipped. -/
def badRRow : RRow :=
  ⟨none, some "2024-01-01 00:00:00", some "Чайник", some "T1", some "не греет",
   some "Новая заявка", some 1, none, none, none⟩

/-- A valid request row (external id 1). -/
def goodRRow : RRow :=
  ⟨some 1, some "2024-01-02 00:00:00", some "Чайник", some "T1", some "не греет",
   some "Новая заявка", some 1, none, none, none⟩

/-- A request row whose completion date precedes its start date. -/
def violatingDatesRRow : RRow :=
  ⟨some 7, some "2024-05-10 00:00:00", some "Стиральная машина", some "W2",
   some "не отжимает", some "Выполнена", some 1, none,
   some "2024-05-01 00:00:00", none⟩

/-- A request row with both a start and a completion date. -/
def completedRRow : RRow :=
  ⟨some 9, some "2024-03-01 10:30:00", some "Микроволновка", some "M5",
   some "не крутится тарелка", some "Выполнена", some 1, none,
   some "2024-03-11 00:00:00", none⟩

/-- A comment row referencing request external id 5 and master id 3,
neither of which exists in the store it is imported into. -/
def orphanCRow : CRow := ⟨some 1, some 5, some 3, some "заменил компрессор"⟩

/-- A stored master row (masters table id 1, backing user id 2). -/
def fixtureMaster : AMaster := ⟨1, some 2, "Мастер Один", "222", "master1", "Мастер"⟩

/-- A stored request with id 1 and a clear `has_comment` flag. -/
def fixtureRequest1 : ARequest :=
  { request_id := 1, start_date := "2024-01-02 00:00:00", tech_type := "Чайник",
    tech_model := "T1", problem_description := "не греет",
    request_status := "Новая заявка", completion_date := none,
    days_in_process := none, repair_parts := some "", has_comment := false,
    master_id := none, master_fio := "", master_phone := "", master_login := "",
    master_type := "", client_id := some 1, client_fio := "Клиент Один",
    client_phone := "111", client_login := "client1", client_type := "client" }

/-- A store holding just `fixtureRequest1`. -/
def fixtureADB : ADB := { emptyADB with requests := [fixtureRequest1] }

/-- A store holding `fixtureRequest1` and the master `fixtureMaster`. -/
def fixtureADB2 : ADB :=
  { emptyADB with masters := [fixtureMaster], requests := [fixtureRequest1],
                  nextMasterRow := 2 }

/-- A legacy `comments` table missing the required `request_id` (and
user) columns, with one row: the migration's row copy then violates
`comments_new`'s `request_id NOT NULL`. -/
def driftTable : CommentsTable :=
  ⟨["id", "message"], [[("id", some "1"), ("message", some "привет")]]⟩

/-- The store state seen by `check_and_update_tables` before the
migration: the drifted table, no `comments_new`. -/
def driftState : MigState := ⟨driftTable, none⟩

end AppDb

namespace WDb

theorem map_login_eq (users : List WUser) (f : WUser → WUser)
    (h : ∀ u, (f u).login = u.login) :
    (users.map f).map (fun u => u.login) = users.map (fun u => u.login) := by
  induction users with
  | nil => rfl
  | cons a l ih => simp only [List.map_cons, h, ih]

theorem importUserRow_db_rest (db : WDB) (m : List (Int × Nat)) (r : WUserRow) :
    (importUserRow db m r).1.repair_requests = db.repair_requests ∧
    (importUserRow db m r).1.request_statuses = db.request_statuses ∧
    (importUserRow db m r).1.comments = db.comments ∧
    (importUserRow db m r).1.user_types = db.user_types ∧
    (importUserRow db m r).1.equipment_types = db.equipment_types ∧
    (importUserRow db m r).1.equipment_models = db.equipment_models ∧
    (importUserRow db m r).1.nextRequestId = db.nextRequestId ∧
    (importUserRow db m r).1.nextTypeId = db.nextTypeId ∧
    (importUserRow db m r).1.nextModelId = db.nextModelId := by
  cases h : db.users.find? (fun u => decide (u.login = r.login)) <;>
    simp [importUserRow, h]

theorem importUserRow_logins (db : WDB) (m : List (Int × Nat)) (r : WUserRow) :
    wLogins (importUserRow db m r).1 =
      if r.login ∈ wLogins db then wLogins db else wLogins db ++ [r.login] := by
  cases h : db.users.find? (fun u => decide (u.login = r.login)) with
  | none =>
      have hnot : r.login ∉ wLogins db := by
        intro hmem
        rw [wLogins, List.mem_map] at hmem
        obtain ⟨u, hu, hl⟩ := hmem
        have hz := List.find?_eq_none.mp h u hu
        simp [hl] at hz
      rw [if_neg hnot]
      simp [importUserRow, h, wLogins]
  | some u =>
      have hpa := List.find?_some h
      have hul : u.login = r.login := by simpa using hpa
      have hu : u ∈ db.users := List.mem_of_find?_eq_some h
      have hmem : r.login ∈ wLogins db := by
        rw [wLogins, List.mem_map]; exact ⟨u, hu, hul⟩
      rw [if_pos hmem]
      show wLogins (importUserRow db m r).1 = wLogins db
      simp only [importUserRow, h]
      rw [wLogins, wLogins]
      exact map_login_eq _ _ (fun v => by split <;> rfl)

theorem usersPhase_db_rest (rows : List WUserRow) : ∀ (db : WDB) m,
    (usersPhase rows db m).1.repair_requests = db.repair_requests ∧
    (usersPhase rows db m).1.request_statuses = db.request_statuses ∧
    (usersPhase rows db m).1.comments = db.comments := by
  induction rows with
  | nil => intro db m; simp [usersPhase]
  | cons r rest ih =>
      intro db m
      obtain ⟨h1, h2, h3, -⟩ := importUserRow_db_rest db m r
      obtain ⟨g1, g2, g3⟩ := ih (importUserRow db m r).1 (importUserRow db m r).2
      rw [usersPhase]
      exact ⟨g1.trans h1, g2.trans h2, g3.trans h3⟩

theorem usersPhase_logins_mono (rows : List WUserRow) : ∀ (db : WDB) m l,
    l ∈ wLogins db → l ∈ wLogins (usersPhase rows db m).1 := by
  induction rows with
  | nil => intro db m l hl; simpa [usersPhase] using hl
  | cons r rest ih =>
      intro db m l hl
      rw [usersPhase]
      apply ih
      rw [importUserRow_logins]
      split
      · exact hl
      · exact List.mem_append_left _ hl

theorem usersPhase_mem_logins (rows : List WUserRow) : ∀ (db : WDB) m r,
    r ∈ rows → r.login ∈ wLogins (usersPhase rows db m).1 := by
  induction rows with
  | nil => intro db m r hr; cases hr
  | cons r0 rest ih =>
      intro db m r hr
      rw [usersPhase]
      cases List.mem_cons.mp hr with
      | inl heq =>
          subst heq
          apply usersPhase_logins_mono
          rw [importUserRow_logins]
          split
          · assumption
          · exact List.mem_append_right _ (List.mem_singleton.mpr rfl)
      | inr hrest => exact ih _ _ _ hrest

theorem usersPhase_logins_stable (rows : List WUserRow) : ∀ (db : WDB) m,
    (∀ r ∈ rows, r.login ∈ wLogins db) →
    wLogins (usersPhase rows db m).1 = wLogins db := by
  induction rows with
  | nil => intro db m _; simp [usersPhase]
  | cons r rest ih =>
      intro db m hall
      rw [usersPhase]
      have hstep : wLogins (importUserRow db m r).1 = wLogins db := by
        rw [importUserRow_logins, if_pos (hall r (List.mem_cons_self r rest))]
      rw [ih _ _ (fun x hx => by rw [hstep]; exact hall x (List.mem_cons_of_mem _ hx))]
      exact hstep

theorem mapGet_cons (a : Int) (b : Nat) (m : List (Int × Nat)) (k : Int) :
    mapGet ((a, b) :: m) k = if a = k then some b else mapGet m k := by
  by_cases h : a = k <;> simp [mapGet, List.find?_cons, h]

theorem importUserRow_mapGet_isSome (db : WDB) (m : List (Int × Nat))
    (r : WUserRow) (k : Int) :
    (mapGet (importUserRow db m r).2 k).isSome =
      (decide (r.userID = k) || (mapGet m k).isSome) := by
  cases h : db.users.find? (fun u => decide (u.login = r.login)) <;>
    by_cases hk : r.userID = k <;>
      simp [importUserRow, h, mapGet_cons, hk]

theorem usersPhase_mapGet_isSome (rows : List WUserRow) : ∀ (db : WDB) m k,
    (mapGet (usersPhase rows db m).2 k).isSome = true ↔
      ((∃ r ∈ rows, r.userID = k) ∨ (mapGet m k).isSome = true) := by
  induction rows with
  | nil => intro db m k; simp [usersPhase]
  | cons r rest ih =>
      intro db m k
      rw [usersPhase]
      rw [ih]
      rw [importUserRow_mapGet_isSome]
      constructor
      · rintro (h | h)
        · exact Or.inl ⟨_, List.mem_cons_of_mem _ h.choose_spec.1, h.choose_spec.2⟩
        · rcases Bool.or_eq_true_iff.mp h with h' | h'
          · exact Or.inl ⟨r, List.mem_cons_self r rest, of_decide_eq_true h'⟩
          · exact Or.inr h'
      · rintro (⟨x, hx, hxk⟩ | h)
        · cases List.mem_cons.mp hx with
          | inl heq =>
              subst heq
              exact Or.inr (Bool.or_eq_true_iff.mpr (Or.inl (decide_eq_true hxk)))
          | inr hmem => exact Or.inl ⟨x, hmem, hxk⟩
        · exact Or.inr (Bool.or_eq_true_iff.mpr (Or.inr h))

theorem getOrCreateType_db (db : WDB) (cache : List (String × Nat)) (name : String) :
    (getOrCreateType db cache name).2.1.users = db.users ∧
    (getOrCreateType db cache name).2.1.request_statuses = db.request_statuses ∧
    (getOrCreateType db cache name).2.1.repair_requests = db.repair_requests ∧
    (getOrCreateType db cache name).2.1.comments = db.comments ∧
    (getOrCreateType db cache name).2.1.nextRequestId = db.nextRequestId := by
  cases h1 : cache.find? (fun p => decide (p.1 = name)) with
  | some p => simp [getOrCreateType, h1]
  | none =>
      cases h2 : db.equipment_types.find? (fun e => decide (e.type_name = name)) <;>
        simp [getOrCreateType, h1, h2]

theorem getOrCreateModel_db (db : WDB) (cache : List (String × Nat))
    (typeName modelName : String) (type_id : Nat) :
    (getOrCreateModel db cache typeName modelName type_id).2.1.users = db.users ∧
    (getOrCreateModel db cache typeName modelName type_id).2.1.request_statuses =
      db.request_statuses ∧
    (getOrCreateModel db cache typeName modelName type_id).2.1.repair_requests =
      db.repair_requests ∧
    (getOrCreateModel db cache typeName modelName type_id).2.1.comments = db.comments ∧
    (getOrCreateModel db cache typeName modelName type_id).2.1.nextRequestId =
      db.nextRequestId := by
  cases h1 : cache.find? (fun p => decide (p.1 = typeName ++ "_" ++ modelName)) with
  | some p => simp [getOrCreateModel, h1]
  | none =>
      cases h2 : db.equipment_models.find?
          (fun e => decide (e.model_name = modelName) &&
                    decide (e.equipment_type_id = type_id)) <;>
        simp [getOrCreateModel, h1, h2]

theorem isOk_ok {α : Type} (a : α) : (Except.ok a : Except String α).isOk = true := rfl

theorem isOk_error {α : Type} (e : String) :
    (Except.error e : Except String α).isOk = false := rfl

theorem importRequestRow_isOk (umap : List (Int × Nat)) (st : ReqPhaseState)
    (row : WRequestRow) :
    (importRequestRow umap st row).isOk = wRowOk st.db.request_statuses umap row := by
  have ht := getOrCreateType_db st.db st.eqTypes row.homeTechType
  have hm := getOrCreateModel_db (getOrCreateType st.db st.eqTypes row.homeTechType).2.1
    st.eqModels row.homeTechType row.homeTechModel
    (getOrCreateType st.db st.eqTypes row.homeTechType).1
  rw [importRequestRow, wRowOk]
  rw [hm.2.1, ht.2.1]
  cases hc : mapGet umap row.clientID with
  | none => simp [isOk_error]
  | some cid =>
      cases hd : checkDates row.startDate row.completionDate <;>
        cases hs : st.db.request_statuses.any
            (fun s => decide (s.status_id = status_mapping row.requestStatus)) <;>
          simp [hd, hs, isOk_error, isOk_ok]

theorem importRequestRow_ok_shape (umap : List (Int × Nat)) (st : ReqPhaseState)
    (row : WRequestRow) (st' : ReqPhaseState)
    (h : importRequestRow umap st row = .ok st') :
    (∃ req, st'.db.repair_requests = st.db.repair_requests ++ [req] ∧
       checkDates req.start_date req.completion_date = true) ∧
    st'.db.request_statuses = st.db.request_statuses ∧
    st'.db.users = st.db.users ∧
    st'.db.comments = st.db.comments := by
  have ht := getOrCreateType_db st.db st.eqTypes row.homeTechType
  have hm := getOrCreateModel_db (getOrCreateType st.db st.eqTypes row.homeTechType).2.1
    st.eqModels row.homeTechType row.homeTechModel
    (getOrCreateType st.db st.eqTypes row.homeTechType).1
  cases hc : mapGet umap row.clientID with
  | none =>
      simp only [importRequestRow, hc] at h
      exact (Except.noConfusion h)
  | some cid =>
      simp only [importRequestRow, hc] at h
      rw [hm.1, hm.2.1, hm.2.2.1, hm.2.2.2.1] at h
      rw [ht.1, ht.2.1, ht.2.2.1, ht.2.2.2.1] at h
      cases hd : checkDates row.startDate row.completionDate with
      | false => simp [hd] at h
      | true =>
          rw [hd] at h
          rw [if_neg (by decide : ¬(true = false))] at h
          cases hs : st.db.request_statuses.any
              (fun s => decide (s.status_id = status_mapping row.requestStatus)) with
          | false => rw [hs] at h; simp at h
          | true =>
              rw [hs] at h
              rw [if_neg (by decide : ¬(true = false))] at h
              injection h with h2
              subst h2
              refine ⟨⟨_, rfl, hd⟩, rfl, rfl, rfl⟩

theorem requestsPhase_ok_shape (umap : List (Int × Nat)) (rows : List WRequestRow) :
    ∀ (st st' : ReqPhaseState), requestsPhase umap rows st = .ok st' →
      st'.db.request_statuses = st.db.request_statuses ∧
      st'.db.users = st.db.users ∧
      st'.db.repair_requests.length = st.db.repair_requests.length + rows.length := by
  induction rows with
  | nil =>
      intro st st' h
      rw [requestsPhase] at h
      cases h
      simp
  | cons r rest ih =>
      intro st st' h
      rw [requestsPhase] at h
      cases hr : importRequestRow umap st r with
      | error e => rw [hr] at h; cases h
      | ok st1 =>
          rw [hr] at h
          obtain ⟨⟨req, hreq, -⟩, hst, hus, -⟩ := importRequestRow_ok_shape umap st r st1 hr
          obtain ⟨g1, g2, g3⟩ := ih st1 st' h
          refine ⟨g1.trans hst, g2.trans hus, ?_⟩
          rw [g3, hreq]
          simp only [List.length_append, List.length_cons, List.length_nil]
          omega

theorem requestsPhase_isOk_iff (umap : List (Int × Nat)) (rows : List WRequestRow) :
    ∀ (st : ReqPhaseState),
      (requestsPhase umap rows st).isOk = true ↔
        ∀ r ∈ rows, wRowOk st.db.request_statuses umap r = true := by
  induction rows with
  | nil => intro st; simp [requestsPhase, isOk_ok]
  | cons r rest ih =>
      intro st
      rw [requestsPhase]
      cases hr : importRequestRow umap st r with
      | error e =>
          have hbad : wRowOk st.db.request_statuses umap r = false := by
            have hh := importRequestRow_isOk umap st r
            rw [hr] at hh
            exact hh.symm
          constructor
          · intro h
            rw [isOk_error] at h
            cases h
          · intro hall
            have hcontra := hall r (List.mem_cons_self r rest)
            rw [hbad] at hcontra
            cases hcontra
      | ok st1 =>
          have hgood : wRowOk st.db.request_statuses umap r = true := by
            have hh := importRequestRow_isOk umap st r
            rw [hr] at hh
            exact hh.symm
          obtain ⟨-, hst, -, -⟩ := importRequestRow_ok_shape umap st r st1 hr
          constructor
          · intro h
            intro x hx
            cases List.mem_cons.mp hx with
            | inl heq => subst heq; exact hgood
            | inr hmem =>
                have hh := (ih st1).mp h x hmem
                rwa [hst] at hh
          · intro hall
            apply (ih st1).mpr
            intro x hx
            rw [hst]
            exact hall x (List.mem_cons_of_mem _ hx)

theorem requestsPhase_datesOk (umap : List (Int × Nat)) (rows : List WRequestRow) :
    ∀ (st st' : ReqPhaseState), requestsPhase umap rows st = .ok st' →
      wDatesOk st.db = true → wDatesOk st'.db = true := by
  induction rows with
  | nil =>
      intro st st' h hd
      rw [requestsPhase] at h
      cases h
      exact hd
  | cons r rest ih =>
      intro st st' h hd
      rw [requestsPhase] at h
      cases hr : importRequestRow umap st r with
      | error e => rw [hr] at h; cases h
      | ok st1 =>
          rw [hr] at h
          obtain ⟨⟨req, hreq, hcd⟩, -, -, -⟩ := importRequestRow_ok_shape umap st r st1 hr
          apply ih st1 st' h
          rw [wDatesOk, hreq, List.all_append]
          rw [wDatesOk] at hd
          simp [hd, hcd]

theorem importCommentRow_db_rest (umap rmap : List (Int × Nat)) (db : WDB)
    (row : WCommentRow) :
    (importCommentRow umap rmap db row).users = db.users ∧
    (importCommentRow umap rmap db row).repair_requests = db.repair_requests ∧
    (importCommentRow umap rmap db row).request_statuses = db.request_statuses := by
  rw [importCommentRow]
  cases mapGet umap row.masterID with
  | none => exact ⟨rfl, rfl, rfl⟩
  | some a =>
      cases mapGet rmap row.requestID with
      | none => exact ⟨rfl, rfl, rfl⟩
      | some b =>
          dsimp only
          by_cases hcond : a ≠ 0 ∧ b ≠ 0
          · rw [if_pos hcond]
            exact ⟨rfl, rfl, rfl⟩
          · rw [if_neg hcond]
            exact ⟨rfl, rfl, rfl⟩

theorem commentsPhase_db_rest (umap rmap : List (Int × Nat)) (rows : List WCommentRow) :
    ∀ (db : WDB) cnt,
      (commentsPhase umap rmap rows db cnt).1.users = db.users ∧
      (commentsPhase umap rmap rows db cnt).1.repair_requests = db.repair_requests ∧
      (commentsPhase umap rmap rows db cnt).1.request_statuses = db.request_statuses := by
  induction rows with
  | nil => intro db cnt; simp [commentsPhase]
  | cons r rest ih =>
      intro db cnt
      rw [commentsPhase]
      obtain ⟨h1, h2, h3⟩ := importCommentRow_db_rest umap rmap db r
      obtain ⟨g1, g2, g3⟩ := ih (importCommentRow umap rmap db r) _
      exact ⟨g1.trans h1, g2.trans h2, g3.trans h3⟩

theorem commentsPhase_datesOk (umap rmap : List (Int × Nat)) (rows : List WCommentRow)
    (db : WDB) (cnt : Nat) (h : wDatesOk db = true) :
    wDatesOk (commentsPhase umap rmap rows db cnt).1 = true := by
  have := (commentsPhase_db_rest umap rmap rows db cnt).2.1
  rw [wDatesOk, this]
  exact h

theorem import_from_excel_error (uRows : List WUserRow) (rRows : List WRequestRow)
    (cRows : List WCommentRow) (db : WDB) (e : String)
    (h : requestsPhase (usersPhase uRows db []).2 rRows
        ⟨(usersPhase uRows db []).1, [], [], []⟩ = .error e) :
    import_from_excel uRows rRows cRows db =
      (db, ⟨false, "Ошибка при импорте заявок: " ++ e⟩) := by
  simp only [import_from_excel, h]

theorem import_from_excel_ok (uRows : List WUserRow) (rRows : List WRequestRow)
    (cRows : List WCommentRow) (db : WDB) (st : ReqPhaseState)
    (h : requestsPhase (usersPhase uRows db []).2 rRows
        ⟨(usersPhase uRows db []).1, [], [], []⟩ = .ok st) :
    (import_from_excel uRows rRows cRows db).2.success = true ∧
    (import_from_excel uRows rRows cRows db).1.users = st.db.users ∧
    (import_from_excel uRows rRows cRows db).1.repair_requests = st.db.repair_requests ∧
    (import_from_excel uRows rRows cRows db).1.request_statuses = st.db.request_statuses := by
  simp only [import_from_excel, h]
  obtain ⟨c1, c2, c3⟩ :=
    commentsPhase_db_rest (usersPhase uRows db []).2 st.rmap cRows st.db 0
  exact ⟨trivial, c1, c2, c3⟩

theorem import_from_excel_success_iff (uRows : List WUserRow) (rRows : List WRequestRow)
    (cRows : List WCommentRow) (db : WDB) :
    (import_from_excel uRows rRows cRows db).2.success = true ↔
      (requestsPhase (usersPhase uRows db []).2 rRows
        ⟨(usersPhase uRows db []).1, [], [], []⟩).isOk = true := by
  cases h : requestsPhase (usersPhase uRows db []).2 rRows
      ⟨(usersPhase uRows db []).1, [], [], []⟩ with
  | error e =>
      rw [import_from_excel_error uRows rRows cRows db e h, isOk_error]
  | ok st =>
      constructor
      · intro _
        exact rfl
      · intro _
        exact (import_from_excel_ok uRows rRows cRows db st h).1

theorem import_from_excel_datesOk (uRows : List WUserRow) (rRows : List WRequestRow)
    (cRows : List WCommentRow) (db : WDB) (h : wDatesOk db = true) :
    wDatesOk (import_from_excel uRows rRows cRows db).1 = true := by
  have hu := (usersPhase_db_rest uRows db []).1
  cases hphase : requestsPhase (usersPhase uRows db []).2 rRows
      ⟨(usersPhase uRows db []).1, [], [], []⟩ with
  | error e =>
      rw [import_from_excel_error uRows rRows cRows db e hphase]
      exact h
  | ok st =>
      have hmid : wDatesOk (usersPhase uRows db []).1 = true := by
        rw [wDatesOk, hu]
        exact h
      have hst : wDatesOk st.db = true :=
        requestsPhase_datesOk (usersPhase uRows db []).2 rRows _ st hphase hmid
      have hfin := (import_from_excel_ok uRows rRows cRows db st hphase).2.2.1
      rw [wDatesOk, hfin]
      exact hst

theorem import_idem_core (uRows : List WUserRow) (rRows : List WRequestRow)
    (cRows : List WCommentRow) (db1 : WDB)
    (hmem : ∀ r ∈ uRows, r.login ∈ wLogins db1)
    (hkeys : ∀ r ∈ rRows,
      (mapGet (usersPhase uRows db1 []).2 r.clientID).isSome = true)
    (hdates : ∀ r ∈ rRows, checkDates r.startDate r.completionDate = true)
    (hstat : ∀ r ∈ rRows, db1.request_statuses.any
      (fun s => decide (s.status_id = status_mapping r.requestStatus)) = true) :
    (import_from_excel uRows rRows cRows db1).2.success = true ∧
    wLogins (import_from_excel uRows rRows cRows db1).1 = wLogins db1 ∧
    (import_from_excel uRows rRows cRows db1).1.repair_requests.length =
      db1.repair_requests.length + rRows.length := by
  obtain ⟨hupreq, hupstat, -⟩ := usersPhase_db_rest uRows db1 []
  have hok : (requestsPhase (usersPhase uRows db1 []).2 rRows
      ⟨(usersPhase uRows db1 []).1, [], [], []⟩).isOk = true := by
    rw [requestsPhase_isOk_iff]
    intro r hr
    show wRowOk (usersPhase uRows db1 []).1.request_statuses
      (usersPhase uRows db1 []).2 r = true
    rw [wRowOk, hupstat]
    simp [hkeys r hr, hdates r hr, hstat r hr]
  obtain ⟨st2, hst2⟩ : ∃ st, requestsPhase (usersPhase uRows db1 []).2 rRows
      ⟨(usersPhase uRows db1 []).1, [], [], []⟩ = .ok st := by
    cases hx : requestsPhase (usersPhase uRows db1 []).2 rRows
        ⟨(usersPhase uRows db1 []).1, [], [], []⟩ with
    | error e => rw [hx, isOk_error] at hok; cases hok
    | ok st => exact ⟨st, rfl⟩
  obtain ⟨h2succ, h2users, h2reqs, -⟩ :=
    import_from_excel_ok uRows rRows cRows db1 st2 hst2
  obtain ⟨-, hr2users, hr2len⟩ :=
    requestsPhase_ok_shape (usersPhase uRows db1 []).2 rRows _ st2 hst2
  have hr2users' : st2.db.users = (usersPhase uRows db1 []).1.users := hr2users
  have hr2len' : st2.db.repair_requests.length =
      (usersPhase uRows db1 []).1.repair_requests.length + rRows.length := hr2len
  refine ⟨h2succ, ?_, ?_⟩
  · calc wLogins (import_from_excel uRows rRows cRows db1).1
        = wLogins (usersPhase uRows db1 []).1 := by
          rw [wLogins, wLogins, h2users, hr2users']
      _ = wLogins db1 := usersPhase_logins_stable uRows db1 [] hmem
  · rw [h2reqs, hr2len', hupreq]

end WDb

section ClaimC1

/-- C1 (as corrected): for every valid row batch — one on which
the import succeeds — running `RepairSystemDatabase.import_from_excel` a
second time with identical input files succeeds again and produces
the same list of user logins (users are upserted by login, so no
duplicates arise), but the repair-request count grows by the number
of source request rows: requests are inserted unconditionally, with
no deduplication by source request identifier. -/
theorem c1_reimport_logins_stable_requests_grow
    (uRows : List WDb.WUserRow) (rRows : List WDb.WRequestRow)
    (cRows : List WDb.WCommentRow) (db : WDb.WDB)
    (h : (WDb.import_from_excel uRows rRows cRows db).2.success = true) :
    (WDb.import_from_excel uRows rRows cRows
        (WDb.import_from_excel uRows rRows cRows db).1).2.success = true ∧
    WDb.wLogins (WDb.import_from_excel uRows rRows cRows
        (WDb.import_from_excel uRows rRows cRows db).1).1 =
      WDb.wLogins (WDb.import_from_excel uRows rRows cRows db).1 ∧
    (WDb.import_from_excel uRows rRows cRows
        (WDb.import_from_excel uRows rRows cRows db).1).1.repair_requests.length =
      (WDb.import_from_excel uRows rRows cRows db).1.repair_requests.length +
        rRows.length := by
  have hiff := (WDb.import_from_excel_success_iff uRows rRows cRows db).mp h
  obtain ⟨st1, hst1⟩ : ∃ st, WDb.requestsPhase (WDb.usersPhase uRows db []).2 rRows
      ⟨(WDb.usersPhase uRows db []).1, [], [], []⟩ = .ok st := by
    cases hx : WDb.requestsPhase (WDb.usersPhase uRows db []).2 rRows
        ⟨(WDb.usersPhase uRows db []).1, [], [], []⟩ with
    | error e => rw [hx, WDb.isOk_error] at hiff; cases hiff
    | ok st => exact ⟨st, rfl⟩
  obtain ⟨-, h1users, -, h1stats⟩ :=
    WDb.import_from_excel_ok uRows rRows cRows db st1 hst1
  obtain ⟨-, hu1stats, -⟩ := WDb.usersPhase_db_rest uRows db []
  obtain ⟨hr1stats, hr1users, -⟩ :=
    WDb.requestsPhase_ok_shape (WDb.usersPhase uRows db []).2 rRows _ st1 hst1
  have hr1stats' : st1.db.request_statuses =
      (WDb.usersPhase uRows db []).1.request_statuses := hr1stats
  have hr1users' : st1.db.users = (WDb.usersPhase uRows db []).1.users := hr1users
  have hdb1stats : (WDb.import_from_excel uRows rRows cRows db).1.request_statuses =
      db.request_statuses := by
    rw [h1stats, hr1stats', hu1stats]
  have hdb1users : (WDb.import_from_excel uRows rRows cRows db).1.users =
      (WDb.usersPhase uRows db []).1.users := h1users.trans hr1users'
  -- run-1 per-row success facts
  have hallok1 : ∀ r ∈ rRows,
      WDb.wRowOk db.request_statuses (WDb.usersPhase uRows db []).2 r = true := by
    have hok1 : (WDb.requestsPhase (WDb.usersPhase uRows db []).2 rRows
        ⟨(WDb.usersPhase uRows db []).1, [], [], []⟩).isOk = true := by
      rw [hst1]; exact rfl
    have hx := (WDb.requestsPhase_isOk_iff (WDb.usersPhase uRows db []).2 rRows
      ⟨(WDb.usersPhase uRows db []).1, [], [], []⟩).mp hok1
    intro r hr
    have hx' : WDb.wRowOk (WDb.usersPhase uRows db []).1.request_statuses
        (WDb.usersPhase uRows db []).2 r = true := hx r hr
    rwa [hu1stats] at hx'
  apply WDb.import_idem_core
  · intro r hr
    have hl : WDb.wLogins (WDb.import_from_excel uRows rRows cRows db).1 =
        WDb.wLogins (WDb.usersPhase uRows db []).1 := by
      rw [WDb.wLogins, WDb.wLogins, hdb1users]
    rw [hl]
    exact WDb.usersPhase_mem_logins uRows db [] r hr
  · intro r hr
    have hx := hallok1 r hr
    rw [WDb.wRowOk] at hx
    simp only [Bool.and_eq_true] at hx
    obtain ⟨⟨hks, -⟩, -⟩ := hx
    have hkmem := (WDb.usersPhase_mapGet_isSome uRows db [] r.clientID).mp hks
    cases hkmem with
    | inl hmemk =>
        apply (WDb.usersPhase_mapGet_isSome uRows
          (WDb.import_from_excel uRows rRows cRows db).1 [] r.clientID).mpr
        exact Or.inl hmemk
    | inr habs =>
        rw [show WDb.mapGet ([] : List (Int × Nat)) r.clientID = none from rfl] at habs
        cases habs
  · intro r hr
    have hx := hallok1 r hr
    rw [WDb.wRowOk] at hx
    simp only [Bool.and_eq_true] at hx
    exact hx.1.2
  · intro r hr
    have hx := hallok1 r hr
    rw [WDb.wRowOk] at hx
    simp only [Bool.and_eq_true] at hx
    rw [hdb1stats]
    exact hx.2

/-- Witness for C1 at a concrete valid one-user/one-request batch:
the first run succeeds, and the theorem's conclusions hold at it. -/
theorem c1_witness :
    (WDb.import_from_excel WDb.sampleUserRows WDb.sampleRequestRows []
        WDb.initialize_database).2.success = true ∧
    ((WDb.import_from_excel WDb.sampleUserRows WDb.sampleRequestRows []
        (WDb.import_from_excel WDb.sampleUserRows WDb.sampleRequestRows []
          WDb.initialize_database).1).2.success = true ∧
     WDb.wLogins (WDb.import_from_excel WDb.sampleUserRows WDb.sampleRequestRows []
        (WDb.import_from_excel WDb.sampleUserRows WDb.sampleRequestRows []
          WDb.initialize_database).1).1 =
       WDb.wLogins (WDb.import_from_excel WDb.sampleUserRows WDb.sampleRequestRows []
          WDb.initialize_database).1 ∧
     (WDb.import_from_excel WDb.sampleUserRows WDb.sampleRequestRows []
        (WDb.import_from_excel WDb.sampleUserRows WDb.sampleRequestRows []
          WDb.initialize_database).1).1.repair_requests.length =
       (WDb.import_from_excel WDb.sampleUserRows WDb.sampleRequestRows []
          WDb.initialize_database).1.repair_requests.length +
         WDb.sampleRequestRows.length) :=
  ⟨by decide,
   c1_reimport_logins_stable_requests_grow WDb.sampleUserRows WDb.sampleRequestRows []
     WDb.initialize_database (by decide)⟩

/-- Counterexample to C1 as stated: importing the same valid
one-request batch twice leaves two request rows in the store, not
one — the request count grew although no request identifier in the
source was new. -/
theorem c1_counterexample :
    (WDb.import_from_excel WDb.sampleUserRows WDb.sampleRequestRows []
        (WDb.import_from_excel WDb.sampleUserRows WDb.sampleRequestRows []
          WDb.initialize_database).1).1.repair_requests.length = 2 ∧
    (WDb.import_from_excel WDb.sampleUserRows WDb.sampleRequestRows []
        WDb.initialize_database).1.repair_requests.length = 1 := by
  decide

end ClaimC1

namespace AppDb

theorem loadRequestsAux_db_congr (now : String) (rows : List RRow) :
    ∀ (i j : Nat) (db : ADB) (log log' : List Nat),
      (loadRequestsAux now i rows db log).1 = (loadRequestsAux now j rows db log').1 := by
  induction rows with
  | nil => intro i j db log log'; rfl
  | cons r rest ih =>
      intro i j db log log'
      rw [loadRequestsAux, loadRequestsAux]
      cases h : loadRequestRow now db r with
      | ok db' => exact ih (i + 1) (j + 1) db' log log'
      | error e => exact ih (i + 1) (j + 1) db (log ++ [i]) (log' ++ [j])

theorem loadRequestsAux_append (now : String) (xs : List RRow) :
    ∀ (ys : List RRow) (i : Nat) (db : ADB) (log : List Nat),
      loadRequestsAux now i (xs ++ ys) db log =
        loadRequestsAux now (i + xs.length) ys
          (loadRequestsAux now i xs db log).1
          (loadRequestsAux now i xs db log).2 := by
  induction xs with
  | nil => intro ys i db log; simp [loadRequestsAux]
  | cons x xt ih =>
      intro ys i db log
      simp only [List.cons_append, loadRequestsAux]
      cases h : loadRequestRow now db x with
      | ok db' =>
          dsimp only [List.append_eq]
          rw [ih ys (i + 1) db' log]
          have harith : i + 1 + xt.length = i + (x :: xt).length := by
            simp [List.length_cons]
            omega
          rw [harith]
      | error e =>
          dsimp only [List.append_eq]
          rw [ih ys (i + 1) db (log ++ [i])]
          have harith : i + 1 + xt.length = i + (x :: xt).length := by
            simp [List.length_cons]
            omega
          rw [harith]

theorem loadRequestsAux_log_mono (now : String) (rows : List RRow) :
    ∀ (i : Nat) (db : ADB) (log : List Nat) (m : Nat),
      m ∈ log → m ∈ (loadRequestsAux now i rows db log).2 := by
  induction rows with
  | nil => intro i db log m hm; exact hm
  | cons r rest ih =>
      intro i db log m hm
      rw [loadRequestsAux]
      cases h : loadRequestRow now db r with
      | ok db' => exact ih (i + 1) db' log m hm
      | error e => exact ih (i + 1) db (log ++ [i]) m (List.mem_append_left _ hm)

end AppDb

section ClaimC3

/-- C3 (as corrected): the two loaders disagree.  In `App.py`'s
`load_requests_from_xlsx` every row-level failure is caught, its row
index is logged, and the loop continues with the next row, so a batch
with a failing row produces exactly the store of the batch with that
row removed, plus a log entry for its index.  In
`Work_DB.py`'s `import_from_excel`, by contrast, any row-level
failure inside the REQUESTS phase aborts the whole run: the store is
rolled back to its pre-import state and a failure result is
returned — the failing row is not skipped and later rows are not
processed. -/
theorem c3_app_continues_but_wdb_aborts
    (now : String) (pre : List AppDb.RRow) (bad : AppDb.RRow)
    (post : List AppDb.RRow) (adb : AppDb.ADB)
    (uRows : List WDb.WUserRow) (rRows : List WDb.WRequestRow)
    (cRows : List WDb.WCommentRow) (wdb : WDb.WDB) :
    ((∃ e, AppDb.loadRequestRow now
        (AppDb.load_requests_from_xlsx now pre adb).1 bad = .error e) →
      (AppDb.load_requests_from_xlsx now (pre ++ bad :: post) adb).1 =
        (AppDb.load_requests_from_xlsx now (pre ++ post) adb).1 ∧
      pre.length ∈ (AppDb.load_requests_from_xlsx now (pre ++ bad :: post) adb).2) ∧
    ((∃ r ∈ rRows, WDb.wRowOk wdb.request_statuses
        (WDb.usersPhase uRows wdb []).2 r = false) →
      (WDb.import_from_excel uRows rRows cRows wdb).2.success = false ∧
      (WDb.import_from_excel uRows rRows cRows wdb).1 = wdb) := by
  constructor
  · rintro ⟨e, he⟩
    simp only [AppDb.load_requests_from_xlsx]
    rw [AppDb.loadRequestsAux_append now pre (bad :: post) 0 adb []]
    rw [AppDb.loadRequestsAux_append now pre post 0 adb []]
    rw [AppDb.loadRequestsAux]
    have he' : AppDb.loadRequestRow now
        (AppDb.loadRequestsAux now 0 pre adb []).1 bad = .error e := he
    rw [he']
    constructor
    · exact AppDb.loadRequestsAux_db_congr now post (0 + pre.length + 1)
        (0 + pre.length) (AppDb.loadRequestsAux now 0 pre adb []).1 _ _
    · apply AppDb.loadRequestsAux_log_mono
      exact List.mem_append_right _ (by simp)
  · rintro ⟨r, hr, hbad⟩
    obtain ⟨-, hustat, -⟩ := WDb.usersPhase_db_rest uRows wdb []
    have hniff : ¬((WDb.requestsPhase (WDb.usersPhase uRows wdb []).2 rRows
        ⟨(WDb.usersPhase uRows wdb []).1, [], [], []⟩).isOk = true) := by
      rw [WDb.requestsPhase_isOk_iff]
      intro hall
      have hx : WDb.wRowOk (WDb.usersPhase uRows wdb []).1.request_statuses
          (WDb.usersPhase uRows wdb []).2 r = true := hall r hr
      rw [hustat] at hx
      rw [hbad] at hx
      cases hx
    cases hx : WDb.requestsPhase (WDb.usersPhase uRows wdb []).2 rRows
        ⟨(WDb.usersPhase uRows wdb []).1, [], [], []⟩ with
    | ok st => exact absurd (by rw [hx]; exact rfl) hniff
    | error e =>
        rw [WDb.import_from_excel_error uRows rRows cRows wdb e hx]
        exact ⟨rfl, rfl⟩

/-- Witness for C3 at concrete inputs: an App batch whose first row
has a NaN `requestID` (it is skipped and logged at index 0, the later
valid row still processed), and a Work_DB batch whose first request
row references an unknown client (the run fails). -/
theorem c3_witness :
    ((AppDb.load_requests_from_xlsx AppDb.nowFixture
        ([] ++ AppDb.badRRow :: [AppDb.goodRRow]) AppDb.emptyADB).1 =
      (AppDb.load_requests_from_xlsx AppDb.nowFixture
        ([] ++ [AppDb.goodRRow]) AppDb.emptyADB).1 ∧
     List.length ([] : List AppDb.RRow) ∈
       (AppDb.load_requests_from_xlsx AppDb.nowFixture
         ([] ++ AppDb.badRRow :: [AppDb.goodRRow]) AppDb.emptyADB).2) ∧
    ((WDb.import_from_excel WDb.sampleUserRows WDb.badThenGoodRequestRows []
        WDb.initialize_database).2.success = false ∧
     (WDb.import_from_excel WDb.sampleUserRows WDb.badThenGoodRequestRows []
        WDb.initialize_database).1 = WDb.initialize_database) :=
  ⟨(c3_app_continues_but_wdb_aborts AppDb.nowFixture [] AppDb.badRRow
      [AppDb.goodRRow] AppDb.emptyADB WDb.sampleUserRows
      WDb.badThenGoodRequestRows [] WDb.initialize_database).1
     ⟨"cannot convert float NaN to integer", rfl⟩,
   (c3_app_continues_but_wdb_aborts AppDb.nowFixture [] AppDb.badRRow
      [AppDb.goodRRow] AppDb.emptyADB WDb.sampleUserRows
      WDb.badThenGoodRequestRows [] WDb.initialize_database).2
     (by decide)⟩

/-- Counterexample to C3 as stated: in `Work_DB.py`, a two-row
request batch whose first row has an unresolvable client is not
processed best-effort — the whole import fails and the store is
rolled back, so the valid second row is not imported either (the
claim would demand one imported request). -/
theorem c3_counterexample :
    (WDb.import_from_excel WDb.sampleUserRows WDb.badThenGoodRequestRows []
        WDb.initialize_database).2.success = false ∧
    (WDb.import_from_excel WDb.sampleUserRows WDb.badThenGoodRequestRows []
        WDb.initialize_database).1.repair_requests.length = 0 := by
  decide

end ClaimC3

section ClaimC4

/-- C4 (as corrected): in the Work_DB import's COMMENTS phase, a
comment record whose master id or request id does not resolve through
the in-run mappings is silently skipped — the store is left exactly
unchanged, no exception arises (the phase step is a total function),
and the run does not fail.  (In the App loader the same situation
still inserts the comment row with NULL user fields, which is why the
claim as stated is corrected rather than confirmed.) -/
theorem c4_wdb_skips_unresolvable_comments
    (umap rmap : List (Int × Nat)) (wdb : WDb.WDB) (row : WDb.WCommentRow)
    (h : WDb.mapGet umap row.masterID = none ∨ WDb.mapGet rmap row.requestID = none) :
    WDb.importCommentRow umap rmap wdb row = wdb := by
  rw [WDb.importCommentRow]
  cases h with
  | inl h1 =>
      rw [h1]
  | inr h2 =>
      rw [h2]
      cases WDb.mapGet umap row.masterID <;> rfl

/-- Witness for C4: a comment row with unmapped external ids is
skipped over an initialized store. -/
theorem c4_witness :
    WDb.mapGet [] (3 : Int) = none ∧
    WDb.importCommentRow [] [] WDb.initialize_database ⟨3, 5, "замена детали"⟩ =
      WDb.initialize_database :=
  ⟨rfl,
   c4_wdb_skips_unresolvable_comments [] [] WDb.initialize_database
     ⟨3, 5, "замена детали"⟩ (Or.inl rfl)⟩

/-- Counterexample to C4 as stated: the App loader inserts a comment
whose request external id (5) and master id (3) resolve to nothing in
an empty store — one comment row is stored where the claim demands
none. -/
theorem c4_counterexample :
    (AppDb.load_comments_from_xlsx [AppDb.orphanCRow] AppDb.emptyADB).comments.length = 1 := by
  decide

end ClaimC4

section ClaimC5

/-- C5: `RepairSystemDatabase.assign_master` succeeds only when the
target user exists with role Мастер (Master) or Менеджер (Manager);
when the target is not such a user (e.g. a Client or an Operator) the
call returns a structured `{success: false, message}` result — no
exception — and leaves the store, in particular the request's master
reference, completely unchanged. -/
theorem c5_assign_master_role_validation
    (wdb : WDb.WDB) (request_id master_id user_id : Nat) :
    ((WDb.assign_master request_id master_id user_id wdb).2.success = true →
      WDb.eligibleMaster wdb master_id = true) ∧
    (WDb.eligibleMaster wdb master_id = false →
      (WDb.assign_master request_id master_id user_id wdb).2.success = false ∧
      (WDb.assign_master request_id master_id user_id wdb).1 = wdb ∧
      (WDb.assign_master request_id master_id user_id wdb).2.message ≠ "") := by
  cases hfind : wdb.repair_requests.find? (fun r => decide (r.request_id = request_id)) with
  | none =>
      constructor
      · intro hsucc
        simp [WDb.assign_master, hfind] at hsucc
      · intro _
        refine ⟨?_, ?_, ?_⟩
        · simp [WDb.assign_master, hfind]
        · simp [WDb.assign_master, hfind]
        · simp [WDb.assign_master, hfind]
  | some rq =>
      cases he : WDb.eligibleMaster wdb master_id with
      | true =>
          exact ⟨fun _ => rfl, fun hfalse => Bool.noConfusion hfalse⟩
      | false =>
          constructor
          · intro hsucc
            simp [WDb.assign_master, hfind, he] at hsucc
          · intro _
            refine ⟨?_, ?_, ?_⟩
            · simp [WDb.assign_master, hfind, he]
            · simp [WDb.assign_master, hfind, he]
            · simp [WDb.assign_master, hfind, he]

/-- Witness for C5: in a store where user 1 is a Заказчик (Client),
assigning user 1 as master of request 1 fails with a message and
leaves the store untouched. -/
theorem c5_witness :
    WDb.eligibleMaster WDb.fixtureWDB 1 = false ∧
    ((WDb.assign_master 1 1 2 WDb.fixtureWDB).2.success = false ∧
     (WDb.assign_master 1 1 2 WDb.fixtureWDB).1 = WDb.fixtureWDB ∧
     (WDb.assign_master 1 1 2 WDb.fixtureWDB).2.message ≠ "") :=
  ⟨by decide, (c5_assign_master_role_validation WDb.fixtureWDB 1 1 2).2 (by decide)⟩

end ClaimC5

section ClaimC8

/-- C8 (as corrected): in the Work_DB store the schema-level
`CHECK (completion_date IS NULL OR completion_date >= start_date)`
is enforced — importing preserves the store-wide date invariant, and
a request row whose completion date precedes its start date makes the
insert fail instead of being written.  (The App store's
`service_requests` table declares no such constraint and persists
violating rows, which is why the claim as stated is corrected.) -/
theorem c8_wdb_dates_check_enforced
    (uRows : List WDb.WUserRow) (rRows : List WDb.WRequestRow)
    (cRows : List WDb.WCommentRow) (wdb : WDb.WDB)
    (umap : List (Int × Nat)) (st : WDb.ReqPhaseState) (row : WDb.WRequestRow) :
    (WDb.wDatesOk wdb = true →
      WDb.wDatesOk (WDb.import_from_excel uRows rRows cRows wdb).1 = true) ∧
    (WDb.checkDates row.startDate row.completionDate = false →
      (WDb.importRequestRow umap st row).isOk = false) := by
  constructor
  · exact WDb.import_from_excel_datesOk uRows rRows cRows wdb
  · intro hbad
    rw [WDb.importRequestRow_isOk, WDb.wRowOk]
    simp [hbad]

/-- Witness for C8: the seeded store satisfies the invariant, a
valid import keeps it, and the concrete violating row is rejected. -/
theorem c8_witness :
    WDb.wDatesOk WDb.initialize_database = true ∧
    WDb.wDatesOk (WDb.import_from_excel WDb.sampleUserRows WDb.sampleRequestRows []
      WDb.initialize_database).1 = true ∧
    WDb.checkDates WDb.violatingWRequestRow.startDate
      WDb.violatingWRequestRow.completionDate = false ∧
    (WDb.importRequestRow [] ⟨WDb.initialize_database, [], [], []⟩
      WDb.violatingWRequestRow).isOk = false :=
  ⟨by decide,
   (c8_wdb_dates_check_enforced WDb.sampleUserRows WDb.sampleRequestRows []
      WDb.initialize_database [] ⟨WDb.initialize_database, [], [], []⟩
      WDb.violatingWRequestRow).1 (by decide),
   by decide,
   (c8_wdb_dates_check_enforced WDb.sampleUserRows WDb.sampleRequestRows []
      WDb.initialize_database [] ⟨WDb.initialize_database, [], [], []⟩
      WDb.violatingWRequestRow).2 (by decide)⟩

/-- Counterexample to C8 as stated: the App store accepts and stores
a request whose completion date (2024-05-01) precedes its start date
(2024-05-10), even deriving a negative `days_in_process`, instead of
rejecting the write. -/
theorem c8_counterexample :
    ((AppDb.load_requests_from_xlsx AppDb.nowFixture [AppDb.violatingDatesRRow]
        AppDb.emptyADB).1.requests.map
      (fun r => (r.start_date, r.completion_date, r.days_in_process))) =
    [("2024-05-10 00:00:00", some "2024-05-01 00:00:00", some (-9))] := by
  decide

end ClaimC8

section ClaimC6

/-- C6: a successful master assignment transitions the request to
"В процессе ремонта" (In Progress) and appends exactly one audit
record referencing that request, and nothing else.  In `Work_DB.py`
the audit record is one `comments` row (message
"Мастер назначен на заявку"); in `App.py` it is one `status_history`
row, with the `comments` table untouched. -/
theorem c6_assign_master_success_effects
    (wdb : WDb.WDB) (request_id master_id user_id : Nat) (s : WDb.WStatus)
    (adb : AppDb.ADB) (rq mid2 : Int) (utype uname : String) (m : AppDb.AMaster)
    (hreq : (wdb.repair_requests.find?
      (fun r => decide (r.request_id = request_id))).isSome = true)
    (hs : wdb.request_statuses.find?
      (fun t => decide (t.status_name = "В процессе ремонта")) = some s)
    (he : WDb.eligibleMaster wdb master_id = true)
    (hu : wdb.users.any (fun u => decide (u.user_id = user_id)) = true)
    (hperm : utype = "admin" ∨ utype = "manager" ∨ utype = "operator")
    (hmid : ¬(mid2 = 0))
    (hm : adb.masters.find? (fun mm => decide (mm.id = mid2)) = some m) :
    ((WDb.assign_master request_id master_id user_id wdb).2.success = true ∧
     (WDb.assign_master request_id master_id user_id wdb).1.repair_requests =
       wdb.repair_requests.map (fun r =>
         if r.request_id = request_id then
           { r with master_id := some master_id, status_id := s.status_id }
         else r) ∧
     (WDb.assign_master request_id master_id user_id wdb).1.comments =
       wdb.comments ++
         [{ message := "Мастер назначен на заявку", master_id := user_id,
            request_id := request_id }] ∧
     ((WDb.assign_master request_id master_id user_id wdb).1.comments.filter
         (fun c => decide (c.request_id = request_id))).length =
       (wdb.comments.filter (fun c => decide (c.request_id = request_id))).length + 1 ∧
     (WDb.assign_master request_id master_id user_id wdb).1.comments.length =
       wdb.comments.length + 1) ∧
    ((AppDb.assign_master rq utype uname (some mid2) adb).2 = true ∧
     (AppDb.assign_master rq utype uname (some mid2) adb).1.status_history =
       adb.status_history ++
         [{ request_id := rq, old_status := "Новая заявка",
            new_status := "В процессе ремонта", changed_by := uname,
            comment := "Назначен мастер: " ++ m.master_fio }] ∧
     (AppDb.assign_master rq utype uname (some mid2) adb).1.comments = adb.comments ∧
     (AppDb.assign_master rq utype uname (some mid2) adb).1.requests =
       adb.requests.map (fun r =>
         if r.request_id = rq then
           { r with master_id := some mid2, master_fio := m.master_fio,
                    master_phone := m.master_phone, master_login := m.master_login,
                    request_status := "В процессе ремонта" }
         else r) ∧
     (AppDb.assign_master rq utype uname (some mid2) adb).1.status_history.length =
       adb.status_history.length + 1) := by
  constructor
  · obtain ⟨req0, hrq⟩ := Option.isSome_iff_exists.mp hreq
    refine ⟨?_, ?_, ?_, ?_, ?_⟩ <;>
      simp [WDb.assign_master, hrq, he, hs, hu, List.filter_append]
  · rw [AppDb.assign_master]
    rw [if_neg (not_not_intro hperm)]
    rw [if_neg hmid, hm]
    refine ⟨rfl, rfl, rfl, rfl, by simp⟩

/-- Witness for C6 at a concrete store: master user 2 (masters-table
id 1) is assigned to request 1 by operator session user 2. -/
theorem c6_witness :
    ((WDb.assign_master 1 2 2 WDb.fixtureWDB).2.success = true ∧
     (WDb.assign_master 1 2 2 WDb.fixtureWDB).1.repair_requests =
       WDb.fixtureWDB.repair_requests.map (fun r =>
         if r.request_id = 1 then
           { r with master_id := some 2,
                    status_id := (⟨2, "В процессе ремонта"⟩ : WDb.WStatus).status_id }
         else r) ∧
     (WDb.assign_master 1 2 2 WDb.fixtureWDB).1.comments =
       WDb.fixtureWDB.comments ++
         [{ message := "Мастер назначен на заявку", master_id := 2,
            request_id := 1 }] ∧
     ((WDb.assign_master 1 2 2 WDb.fixtureWDB).1.comments.filter
         (fun c => decide (c.request_id = 1))).length =
       (WDb.fixtureWDB.comments.filter (fun c => decide (c.request_id = 1))).length + 1 ∧
     (WDb.assign_master 1 2 2 WDb.fixtureWDB).1.comments.length =
       WDb.fixtureWDB.comments.length + 1) ∧
    ((AppDb.assign_master 1 "operator" "Оператор Один" (some 1)
        AppDb.fixtureADB2).2 = true ∧
     (AppDb.assign_master 1 "operator" "Оператор Один" (some 1)
        AppDb.fixtureADB2).1.status_history =
       AppDb.fixtureADB2.status_history ++
         [{ request_id := 1, old_status := "Новая заявка",
            new_status := "В процессе ремонта", changed_by := "Оператор Один",
            comment := "Назначен мастер: " ++ AppDb.fixtureMaster.master_fio }] ∧
     (AppDb.assign_master 1 "operator" "Оператор Один" (some 1)
        AppDb.fixtureADB2).1.comments = AppDb.fixtureADB2.comments ∧
     (AppDb.assign_master 1 "operator" "Оператор Один" (some 1)
        AppDb.fixtureADB2).1.requests =
       AppDb.fixtureADB2.requests.map (fun r =>
         if r.request_id = 1 then
           { r with master_id := some 1,
                    master_fio := AppDb.fixtureMaster.master_fio,
                    master_phone := AppDb.fixtureMaster.master_phone,
                    master_login := AppDb.fixtureMaster.master_login,
                    request_status := "В процессе ремонта" }
         else r) ∧
     (AppDb.assign_master 1 "operator" "Оператор Один" (some 1)
        AppDb.fixtureADB2).1.status_history.length =
       AppDb.fixtureADB2.status_history.length + 1) :=
  c6_assign_master_success_effects WDb.fixtureWDB 1 2 2 ⟨2, "В процессе ремонта"⟩
    AppDb.fixtureADB2 1 1 "operator" "Оператор Один" AppDb.fixtureMaster
    (by decide) (by decide) (by decide) (by decide)
    (Or.inr (Or.inr rfl)) (by decide) (by decide)

end ClaimC6

section ClaimC2

/-- C2: in `check_and_update_tables`' comments migration, when the
required columns are missing and the row copy into the replacement
table fails (a copied row violates a NOT NULL column of
`comments_new`), the original `comments` table is preserved byte for
byte, the transient `comments_new` is dropped, the failure is
reported, and the store state afterwards equals the state before the
migration. -/
theorem c2_failed_migration_preserves_table (st : AppDb.MigState)
    (hmiss : (AppDb.requiredCommentColumns.filter
      (fun c => !(st.comments.cols.contains c))).isEmpty = false)
    (hfail : AppDb.commentsCopyFails st.comments = true)
    (hnew : st.comments_new = none) :
    (AppDb.check_and_update_tables st).1 = st ∧
    (AppDb.check_and_update_tables st).2 = true := by
  have hres : AppDb.check_and_update_tables st =
      ({ comments := st.comments, comments_new := none }, true) := by
    simp only [AppDb.check_and_update_tables]
    rw [hmiss, if_neg (by decide : ¬(false = true)), hfail,
        if_pos (rfl : (true : Bool) = true)]
  rw [hres]
  constructor
  · show ({ comments := st.comments, comments_new := none } : AppDb.MigState) = st
    rw [← hnew]
  · rfl

/-- Witness for C2 at a concrete drifted table: `["id", "message"]`
lacks `request_id`, the copy fails, and the state is unchanged with
the failure reported. -/
theorem c2_witness :
    (AppDb.requiredCommentColumns.filter
      (fun c => !(AppDb.driftState.comments.cols.contains c))).isEmpty = false ∧
    AppDb.commentsCopyFails AppDb.driftState.comments = true ∧
    ((AppDb.check_and_update_tables AppDb.driftState).1 = AppDb.driftState ∧
     (AppDb.check_and_update_tables AppDb.driftState).2 = true) :=
  ⟨by decide, by decide,
   c2_failed_migration_preserves_table AppDb.driftState (by decide) (by decide) rfl⟩

end ClaimC2

namespace AppDb

theorem flag_any_false (l : List ARequest) (rid : Int) :
    ((l.map (fun r => if r.request_id = rid then { r with has_comment := true } else r)).any
      (fun r => decide (r.request_id = rid) && !r.has_comment)) = false := by
  rw [List.any_map, List.any_eq_false]
  intro x _
  by_cases h0 : x.request_id = rid <;> simp [h0]

end AppDb

section ClaimC7

/-- C7 (as corrected): both comment-inserting operations of `App.py`
set the owning request's `has_comment` flag to true in the same
operation — after `add_comment` (and after a comment-import row with
a non-zero request id) no stored request with that id has a false
flag.  The flag is, however, not monotonic across operations: the
request import rewrites request rows without a `has_comment` column,
resetting the flag to its FALSE default, so a later read can see
false again. -/
theorem c7_comment_insert_sets_flag (adb : AppDb.ADB) (request_id : Int)
    (message : String) (rp : Option String) (uid : Int) (ufio utype : String)
    (row : AppDb.CRow) (n : Int) :
    ((AppDb.add_comment request_id message rp uid ufio utype adb).requests.any
      (fun r => decide (r.request_id = request_id) && !r.has_comment)) = false ∧
    (row.requestID = some n → ¬(n = 0) →
      ((AppDb.applyCommentRow adb row).requests.any
        (fun r => decide (r.request_id = n) && !r.has_comment)) = false) := by
  constructor
  · simp only [AppDb.add_comment]
    cases rp with
    | none => exact AppDb.flag_any_false adb.requests request_id
    | some p =>
        dsimp only
        by_cases hp : p ≠ ""
        · rw [if_pos hp]
          rw [List.any_map, List.any_eq_false]
          intro x hx
          have hall := List.any_eq_false.mp
            (AppDb.flag_any_false adb.requests request_id) x hx
          intro hcontra
          apply hall
          by_cases hgx : x.request_id = request_id
          · simpa [hgx] using hcontra
          · simp [hgx] at hcontra
        · rw [if_neg hp]
          exact AppDb.flag_any_false adb.requests request_id
  · intro hrow hn
    rw [AppDb.applyCommentRow, hrow]
    dsimp only
    rw [if_pos hn]
    exact AppDb.flag_any_false adb.requests n

/-- Witness for C7: after adding a comment to request 1 (and after a
comment-import row targeting request 1), no stored request with id 1
has a clear flag. -/
theorem c7_witness :
    ((AppDb.add_comment 1 "проверка выполнена" none 7 "Оператор Семь" "operator"
        AppDb.fixtureADB).requests.any
      (fun r => decide (r.request_id = (1 : Int)) && !r.has_comment)) = false ∧
    ((AppDb.applyCommentRow AppDb.fixtureADB ⟨some 2, some 1, none, some "текст"⟩).requests.any
      (fun r => decide (r.request_id = (1 : Int)) && !r.has_comment)) = false :=
  ⟨(c7_comment_insert_sets_flag AppDb.fixtureADB 1 "проверка выполнена" none 7
      "Оператор Семь" "operator" ⟨some 2, some 1, none, some "текст"⟩ 1).1,
   (c7_comment_insert_sets_flag AppDb.fixtureADB 1 "проверка выполнена" none 7
      "Оператор Семь" "operator" ⟨some 2, some 1, none, some "текст"⟩ 1).2
     rfl (by decide)⟩

/-- Counterexample to C7 as stated: after `add_comment` sets request
1's flag, re-importing the requests file replaces the row via
`INSERT OR REPLACE` without a `has_comment` column — the flag reads
false again, so it does not remain true for all subsequent reads. -/
theorem c7_counterexample :
    (((AppDb.add_comment 1 "ремонт начат" none 7 "Мастер Семь" "master"
        AppDb.fixtureADB).requests.find?
      (fun r => decide (r.request_id = (1 : Int)))).map
        (fun r => r.has_comment)) = some true ∧
    ((((AppDb.load_requests_from_xlsx AppDb.nowFixture [AppDb.goodRRow]
        (AppDb.add_comment 1 "ремонт начат" none 7 "Мастер Семь" "master"
          AppDb.fixtureADB)).1).requests.find?
      (fun r => decide (r.request_id = (1 : Int)))).map
        (fun r => r.has_comment)) = some false := by
  decide

end ClaimC7

section ClaimC9

/-- C9: for an imported request record with a completion date, the
derived `days_in_process` is the whole-day difference between the
completion and start dates — the difference of their
`date.toordinal` day numbers, parsed from the 10-character date
prefixes — and is 0 when either date is malformed (fails
`strptime(…, '%Y-%m-%d')`); a row inserted by the loader stores
exactly this value. -/
theorem c9_days_in_process_derivation (start c : String)
    (ds de : AppDb.CivilDate) :
    (AppDb.strptimeYmd (start.take 10) = some ds →
     AppDb.strptimeYmd (c.take 10) = some de → ¬(c = "") →
      AppDb.daysInProcessCalc start (some c) =
        some ((AppDb.toordinal de : Int) - (AppDb.toordinal ds : Int))) ∧
    ((AppDb.strptimeYmd (start.take 10) = none ∨
      AppDb.strptimeYmd (c.take 10) = none) → ¬(c = "") →
      AppDb.daysInProcessCalc start (some c) = some 0) ∧
    AppDb.daysInProcessCalc start none = none ∧
    (∀ (now : String) (db : AppDb.ADB) (row : AppDb.RRow) (rq : Int),
      row.requestID = some rq →
      (AppDb.loadRequestRow now db row).map (fun db' =>
        (db'.requests.filter (fun r => decide (r.request_id = rq))).map
          (fun r => r.days_in_process)) =
      .ok [AppDb.daysInProcessCalc (row.startDate.getD now) row.completionDate]) := by
  refine ⟨?_, ?_, rfl, ?_⟩
  · intro h1 h2 h3
    rw [AppDb.daysInProcessCalc]
    rw [if_neg h3, h1, h2]
  · intro h h3
    rw [AppDb.daysInProcessCalc]
    rw [if_neg h3]
    cases h with
    | inl h1 =>
        rw [h1]
    | inr h2 =>
        rw [h2]
        cases AppDb.strptimeYmd (start.take 10) <;> rfl
  · intro now db row rq hrq
    rw [AppDb.loadRequestRow, hrq]
    dsimp only [Except.map]
    rw [AppDb.replaceRequest]
    dsimp only
    rw [List.filter_append]
    have hdrop : (db.requests.filter
        (fun x => !(decide (x.request_id = rq)))).filter
          (fun r => decide (r.request_id = rq)) = [] := by
      rw [List.filter_eq_nil_iff]
      intro a ha
      have hmem := List.of_mem_filter ha
      simp at hmem
      simp [hmem]
    rw [hdrop]
    simp

/-- Witness for C9: 2024-03-01 to 2024-03-11 derives 10 whole days,
and a loaded row stores exactly the derived value. -/
theorem c9_witness :
    AppDb.strptimeYmd ("2024-03-01 10:30:00".take 10) = some ⟨2024, 3, 1⟩ ∧
    AppDb.strptimeYmd ("2024-03-11 00:00:00".take 10) = some ⟨2024, 3, 11⟩ ∧
    AppDb.daysInProcessCalc "2024-03-01 10:30:00" (some "2024-03-11 00:00:00") =
      some ((AppDb.toordinal ⟨2024, 3, 11⟩ : Int) - (AppDb.toordinal ⟨2024, 3, 1⟩ : Int)) ∧
    AppDb.daysInProcessCalc "2024-03-01 10:30:00" (some "2024-03-11 00:00:00") =
      some 10 ∧
    ((AppDb.loadRequestRow AppDb.nowFixture AppDb.emptyADB AppDb.completedRRow).map
      (fun db' => (db'.requests.filter (fun r => decide (r.request_id = (9 : Int)))).map
        (fun r => r.days_in_process))) =
      .ok [AppDb.daysInProcessCalc (AppDb.completedRRow.startDate.getD AppDb.nowFixture)
        AppDb.completedRRow.completionDate] :=
  ⟨by decide, by decide,
   (c9_days_in_process_derivation "2024-03-01 10:30:00" "2024-03-11 00:00:00"
      ⟨2024, 3, 1⟩ ⟨2024, 3, 11⟩).1 (by decide) (by decide) (by decide),
   by decide,
   (c9_days_in_process_derivation "2024-03-01 10:30:00" "2024-03-11 00:00:00"
      ⟨2024, 3, 1⟩ ⟨2024, 3, 11⟩).2.2.2 AppDb.nowFixture AppDb.emptyADB
     AppDb.completedRRow 9 rfl⟩

end ClaimC9

section ClaimC10

/-- C10: when the users spreadsheet is missing (or reading it
raises — both paths fall back to `create_default_users`), user
loading does not fail initialization: exactly seven fixed default
accounts are created (logins admin, manager1, master1, master2,
operator1, client1, client2 with roles admin, admin, master, master,
operator, client, client), and the two master accounts are also
inserted into the `masters` table linked to their user ids. -/
theorem c10_default_users_on_missing_file :
    (AppDb.load_users_from_xlsx none AppDb.emptyADB).users.map
        (fun u => (u.id, u.login, u.user_type)) =
      [(1, "admin", "admin"), (2, "manager1", "admin"), (3, "master1", "master"),
       (4, "master2", "master"), (5, "operator1", "operator"),
       (6, "client1", "client"), (7, "client2", "client")] ∧
    (AppDb.load_users_from_xlsx none AppDb.emptyADB).masters.map
        (fun m => (m.master_login, m.user_id)) =
      [("master1", some 3), ("master2", some 4)] ∧
    (AppDb.load_users_from_xlsx none AppDb.emptyADB).users.length = 7 := by
  decide

end ClaimC10
